import Mathlib

set_option autoImplicit false

/-!
Shallow embedding of the cmdgo capture engine (ClickerMonkey/cmdgo).

The Go source is translated function by function.  Strings are modelled as
ASCII character sequences (byte index = character index), the process
environment is modelled as a read-only function carried in `Options`, the
prompt input stream as a list of already-read lines (without trailing
newline characters), and `reflect.Value` mutation as explicit state
passing.  The runtime-type fragment covered by the model is: `string`,
`int` (64-bit), `bool`, and slices thereof; the chan/func/unsafe-pointer
kinds, pointers, structs, arrays and maps do not occur in the records the
theorems are about, so the kind predicates are the restrictions of the
source's kind tables to this fragment.  Optional capabilities
(`ArgValue`, `PromptCustom`, `PromptValue`, `encoding.TextUnmarshaler`,
`HasChoices`, `Dynamic`, `Validator`) are not implemented by any of the
built-in kinds above, so the corresponding branches resolve to their
absent case.  Go `panic` at descriptor-construction time is modelled as
`Except.error`.  Unbounded `for` loops are modelled with an explicit fuel
argument; fuel exhaustion yields the artificial error `GoError.noFuel`,
and every theorem either supplies ample fuel or holds for all fuel values
above the stated bound.
-/

namespace Cmdgo

/-- ASCII lower-casing of one character; models strings.ToLower /
the lower-casing inside Normalize for the ASCII inputs the library uses. -/
def lowerChar (c : Char) : Char :=
  if 'A' ≤ c ∧ c ≤ 'Z' then Char.ofNat (c.toNat + 32) else c

/-- Is the character an ASCII letter or digit (the complement of the
Normalize regex [^a-zA-Z0-9])? -/
def isAlnumChar (c : Char) : Bool :=
  ('a' ≤ c && c ≤ 'z') || ('A' ≤ c && c ≤ 'Z') || ('0' ≤ c && c ≤ '9')

/-- strings.ToLower (ASCII fragment). -/
def lowerStr (s : String) : String := String.mk (s.data.map lowerChar)

/-- Normalize from util.go: the regex [^a-zA-Z0-9] removes every
non-alphanumeric character and the result is lower-cased. -/
def Normalize (s : String) : String :=
  String.mk ((s.data.filter isAlnumChar).map lowerChar)

/-- strings.HasPrefix s pre. -/
def goHasPfx (s pre : String) : Bool := pre.data.isPrefixOf s.data

/-- strings.EqualFold restricted to ASCII case folding. -/
def equalFold (a b : String) : Bool := lowerStr a == lowerStr b

/-- Go string slicing s[n:] for ASCII strings. -/
def dropChars (n : Nat) (s : String) : String := String.mk (s.data.drop n)

/-- strings.TrimRight: removes the trailing characters that belong to the
cut set. -/
def trimRightSet (s : String) (cut : List Char) : String :=
  String.mk ((s.data.reverse.dropWhile (fun c => cut.contains c)).reverse)

/-- Is the character an ASCII digit? -/
def isDigitChar (c : Char) : Bool := '0' ≤ c && c ≤ '9'

/-- Numeric value of an ASCII digit. -/
def digitVal (c : Char) : Nat := c.toNat - '0'.toNat

/-- Value of a run of decimal digits. -/
def digitsToNat (ds : List Char) : Nat := ds.foldl (fun a c => a * 10 + digitVal c) 0

/-- strconv.ParseBool: exactly these twelve strings are accepted. -/
def parseGoBool (s : String) : Option Bool :=
  if s = "1" ∨ s = "t" ∨ s = "T" ∨ s = "TRUE" ∨ s = "true" ∨ s = "True" then some true
  else if s = "0" ∨ s = "f" ∨ s = "F" ∨ s = "FALSE" ∨ s = "false" ∨ s = "False" then some false
  else none

/-- strconv.ParseInt(s, 10, bits): optional sign, a non-empty digit run,
and a range check; out-of-range input is an error. -/
def parseGoInt (bits : Nat) (s : String) : Option Int :=
  let (sign, ds) :=
    match s.data with
    | '+' :: rest => ((1 : Int), rest)
    | '-' :: rest => ((-1 : Int), rest)
    | rest => ((1 : Int), rest)
  if ds.isEmpty || !(ds.all isDigitChar) then none
  else
    let n : Int := sign * (digitsToNat ds : Int)
    if -(2 ^ (bits - 1)) ≤ n ∧ n ≤ 2 ^ (bits - 1) - 1 then some n else none

/-- Exponent part of a decimal float literal: optional sign and a
non-empty digit run. -/
def parseExpPart (cs : List Char) : Option Int :=
  let (sign, ds) :=
    match cs with
    | '+' :: rest => ((1 : Int), rest)
    | '-' :: rest => ((-1 : Int), rest)
    | rest => ((1 : Int), rest)
  if ds.isEmpty || !(ds.all isDigitChar) then none
  else some (sign * (digitsToNat ds : Int))

/-- Exact fraction representing a parsed float64 (numerator over a
positive power-of-ten denominator, not normalized).  Exact rational
arithmetic agrees with the source's float64 on the small bounds used in
struct tags. -/
structure GoFloat where
  num : Int
  den : Nat
deriving DecidableEq

/-- a < b on fractions with positive denominators. -/
def GoFloat.blt (a b : GoFloat) : Bool := a.num * (b.den : Int) < b.num * (a.den : Int)

/-- a > b on fractions with positive denominators. -/
def GoFloat.bgt (a b : GoFloat) : Bool := GoFloat.blt b a

/-- float64 value of an integer. -/
def goFloatOfInt (n : Int) : GoFloat := ⟨n, 1⟩

/-- Go conversion int(f) of a float64: truncation toward zero. -/
def ratTrunc (q : GoFloat) : Int := Int.tdiv q.num (q.den : Int)

/-- Mantissa of a decimal float literal: digits with an optional dot;
at least one digit must be present.  Returns the value and the unread
remainder of the input. -/
def parseMantissa (cs : List Char) : Option (GoFloat × List Char) :=
  let ip := cs.takeWhile isDigitChar
  let r1 := cs.drop ip.length
  match r1 with
  | '.' :: r2 =>
    let fp := r2.takeWhile isDigitChar
    let r3 := r2.drop fp.length
    if ip.isEmpty && fp.isEmpty then none
    else
      some (⟨(digitsToNat ip : Int) * ((10 ^ fp.length : Nat) : Int) + (digitsToNat fp : Int),
            10 ^ fp.length⟩, r3)
  | _ => if ip.isEmpty then none else some (⟨(digitsToNat ip : Int), 1⟩, r1)

/-- Scaling by a decimal exponent. -/
def applyExp (m : GoFloat) (k : Int) : GoFloat :=
  if k ≥ 0 then ⟨m.num * ((10 ^ k.toNat : Nat) : Int), m.den⟩
  else ⟨m.num, m.den * 10 ^ (-k).toNat⟩

/-- Model of strconv.ParseFloat(s, 64) on finite decimal literals
(optional sign, digits with optional dot, optional decimal exponent).
Hex floats, inf/nan spellings and digit-separating underscores are
outside the modelled fragment. -/
def parseGoFloat (s : String) : Option GoFloat :=
  let (sign, cs) :=
    match s.data with
    | '+' :: rest => ((1 : Int), rest)
    | '-' :: rest => ((-1 : Int), rest)
    | rest => ((1 : Int), rest)
  match parseMantissa cs with
  | none => none
  | some (m, rest) =>
    match rest with
    | [] => some ⟨sign * m.num, m.den⟩
    | e :: rest2 =>
      if e = 'e' ∨ e = 'E' then
        (parseExpPart rest2).map (fun k =>
          let me := applyExp m k
          ⟨sign * me.num, me.den⟩)
      else none

/-- Runtime types of the modelled fragment (field Type / reflect.Kind). -/
inductive GoType where
  | string
  | int
  | bool
  | slice (elem : GoType)
deriving DecidableEq

/-- Runtime values of the modelled fragment.  A nil slice and an empty
slice are identified (the difference is observable in Go only through
reflect.IsZero on slice-typed values, which the modelled records never
reach: CanLoad demands a simple kind first). -/
inductive Val where
  | str (s : String)
  | int (n : Int)
  | bool (b : Bool)
  | slice (elems : List Val)

/-- Zero value of a type; also models initializeType for the fragment. -/
def zeroOfType : GoType → Val
  | .string => .str ""
  | .int => .int 0
  | .bool => .bool false
  | .slice _ => .slice []

/-- reflect.Value.IsZero on the fragment (isDefaultValue in util.go). -/
def valIsZero : Val → Bool
  | .str s => s == ""
  | .int n => n == 0
  | .bool b => b == false
  | .slice xs => xs.isEmpty

/-- Is the kind simple (not array/slice/map/struct/chan/func/interface/
unsafe-pointer)?  Restriction of Property.IsSimple's kind table. -/
def typeIsSimple : GoType → Bool
  | .slice _ => false
  | _ => true

/-- levels of slice nesting in a type. -/
def typeDepth : GoType → Nat
  | .slice t => typeDepth t + 1
  | _ => 0

/-- Maps an optional-producing function over a list, failing if any
element fails (the error propagation of ParseType over slice parts). -/
def listOptionMap {α β : Type} (f : α → Option β) : List α → Option (List β)
  | [] => some []
  | x :: xs =>
    match f x, listOptionMap f xs with
    | some y, some ys => some (y :: ys)
    | _, _ => none

/-- ParseType + SetString from util.go on the fragment: strings pass
through, ints via ParseInt(s,10,64), bools via ParseBool, slices by
splitting on "," and parsing each part.  (The depth argument of the
auxiliary function is exactly the slice nesting depth, so the zero-fuel
branch is unreachable.) -/
def parseTypeAux : Nat → GoType → String → Option Val
  | _, .string, s => some (.str s)
  | _, .int, s => (parseGoInt 64 s).map Val.int
  | _, .bool, s => (parseGoBool s).map Val.bool
  | 0, .slice _, _ => none
  | d + 1, .slice t, s => (listOptionMap (parseTypeAux d t) (s.splitOn ",")).map Val.slice

/-- SetString: parse the text at the given type (see parseTypeAux). -/
def parseTypeVal (t : GoType) (s : String) : Option Val := parseTypeAux (typeDepth t) t s

/-- fmt %+v of a value on the fragment (used by isTextuallyEqual). -/
def goFmtAux : Nat → Val → String
  | _, .str s => s
  | _, .int n => toString n
  | _, .bool b => cond b "true" "false"
  | 0, .slice _ => "[]"
  | d + 1, .slice xs => "[" ++ String.intercalate " " (xs.map (goFmtAux d)) ++ "]"

/-- isTextuallyEqual from util.go: parse the text at the type and compare
the %+v renderings.  Values conform to the property's declared type, so
the slice nesting depth of the type bounds the recursion of the
formatter. -/
def isTextuallyEqual (v : Val) (text : String) (ty : GoType) : Bool :=
  match parseTypeVal ty text with
  | none => false
  | some w => goFmtAux (typeDepth ty + 1) v == goFmtAux (typeDepth ty + 1) w

/-- Errors of the engine.  quit/discard/noPrompt/verifyFailed/regexFailed
are the sentinel error values Quit/Discard/NoPrompt/VerifyFailed/
RegexFailed; invalidConversion is ErrInvalidConversion;
invalidFormat stands for ErrInvalidFormat and the strconv parse errors;
invalidUnmarshal is InvalidUnmarshalError; regexBad models a
regexp.Compile failure; validationMin/validationMax/validationChoice are
the fmt.Errorf values produced by Property.Validate (carrying the data
interpolated into the message); noFuel is the artificial fuel-exhaustion
marker of the model (no Go counterpart). -/
inductive GoError where
  | quit
  | discard
  | noPrompt
  | verifyFailed
  | regexFailed
  | regexBad
  | invalidConversion
  | invalidFormat
  | invalidUnmarshal
  | validationMin (name : String) (bound : GoFloat)
  | validationMax (name : String) (bound : GoFloat)
  | validationChoice (name : String)
  | noFuel
deriving DecidableEq

/-- One declared choice: display text and resolved value. -/
structure PromptChoice where
  Text : String
  Value : String
deriving DecidableEq

/-- PromptChoices: a Go map from normalized input to PromptChoice,
modelled as an association list with unique keys (insertion by Add keeps
keys unique, mirroring map assignment). -/
abbrev PromptChoices := List (String × PromptChoice)

/-- PromptChoices.Add: map assignment pc[Normalize(input)] = value. -/
def choicesAdd (pc : PromptChoices) (input value : String) : PromptChoices :=
  let key := Normalize input
  if pc.any (fun kv => kv.1 == key) then
    pc.map (fun kv => if kv.1 == key then (key, PromptChoice.mk input value) else kv)
  else pc ++ [(key, PromptChoice.mk input value)]

/-- PromptChoices.FromTag: split the tag into pairs and each pair into
key/value (the key doubling as value when no delimiter is present). -/
def choicesFromTag (pc : PromptChoices) (tag pairDelim kvDelim : String) : PromptChoices :=
  (tag.splitOn pairDelim).foldl
    (fun acc option =>
      let kv := option.splitOn kvDelim
      let (key, value) :=
        match kv with
        | [] => ("", "")
        | [k] => (k, k)
        | k :: v :: _ => (k, v)
      choicesAdd acc key value)
    pc

/-- PromptChoices.HasChoices. -/
def hasChoices (pc : PromptChoices) : Bool := pc.length > 0

/-- Go map lookup pc[key]. -/
def choicesLookup (pc : PromptChoices) (key : String) : Option PromptChoice :=
  (pc.find? (fun kv => kv.1 == key)).map (fun kv => kv.2)

/-- PromptChoices.Convert: exact normalized match wins; otherwise a unique
key with the normalized input as prefix resolves; otherwise
ErrInvalidConversion.  An empty table passes the input through.  (Go map
iteration order does not affect the result: the unique-match value and
the match count are order independent.) -/
def choicesConvert (pc : PromptChoices) (input : String) : Except GoError String :=
  if !hasChoices pc then .ok input
  else
    let key := Normalize input
    match choicesLookup pc key with
    | some c => .ok c.Value
    | none =>
      if key.length > 0 then
        let possible := (pc.filter (fun kv => goHasPfx (lowerStr kv.1) key)).map (fun kv => kv.2.Value)
        if possible.length = 1 then .ok (possible.headD "") else .error .invalidConversion
      else .error .invalidConversion

/-- Loop body of GetArg from util.go, recursing over the token list.
Returns the extracted value and the remaining tokens. -/
def getArgLoop (normal dflt : String) (argPre : String) (flag : Bool) : List String → String × List String
  | [] => (dflt, [])
  | arg :: rest =>
    if goHasPfx (lowerStr arg) (lowerStr argPre) && Normalize (dropChars argPre.length arg) == normal then
      let (value, eraseTwo) :=
        match rest with
        | [] => (dflt, false)
        | next :: _ => if goHasPfx (lowerStr next) (lowerStr argPre) then (dflt, false) else (next, true)
      let value := if flag && value == dflt then "true" else value
      (value, if eraseTwo then rest.drop 1 else rest)
    else
      let (v, rest') := getArgLoop normal dflt argPre flag rest
      (v, arg :: rest')

/-- GetArg from util.go: find the first token named argPrefix+name
(matching case/punctuation insensitively on the prefix-stripped key),
remove it and - unless the next token itself looks like a flag - its
following value token, and return that value (the default when absent; a
boolean flag with no value yields the literal "true").  The mutation of
the token list is returned as the second component. -/
def GetArg (name dflt : String) (args : List String) (argPre : String) (flag : Bool) : String × List String :=
  getArgLoop (Normalize name) dflt argPre flag args

/-- Property flag bits (PropertyFlagArgs/Prompt/Env/Default). -/
def flagArgs : Nat := 1

/-- PropertyFlagPrompt. -/
def flagPrompt : Nat := 2

/-- PropertyFlagEnv. -/
def flagEnv : Nat := 4

/-- PropertyFlagDefault. -/
def flagDefault : Nat := 8

/-- Flags.Is(MatchAny(mask)): value & mask != 0. -/
def flagHasAny (flags mask : Nat) : Bool := flags &&& mask != 0

/-- Flags.Remove(mask): value & ^mask, with the uint complement restricted
to the four flag bits actually in use. -/
def flagsRemove (flags mask : Nat) : Nat := flags &&& (15 ^^^ mask)

/-- A command property parsed from a command struct (struct Property of
the source).  The Go field Type is called Ty here (Type is reserved in
Lean); Min/Max model the *float64 pointers as Option GoFloat; Flags
models the bitset as a Nat. -/
structure Property where
  Value : Val
  Ty : GoType
  Name : String
  HidePrompt : Bool := false
  PromptText : String := ""
  PromptMulti : Bool := false
  PromptStart : String := ""
  PromptEnd : String := ""
  PromptMore : String := ""
  PromptEmpty : Bool := false
  InputHidden : Bool := false
  PromptTries : Int := 0
  PromptVerify : Bool := false
  Reprompt : Bool := false
  Help : String := ""
  HideDefault : Bool := false
  DefaultText : String := ""
  Default : String := ""
  Regex : String := ""
  Choices : PromptChoices := []
  Min : Option GoFloat := none
  Max : Option GoFloat := none
  Env : List String := []
  Arg : String := ""
  Flags : Nat := 0

/-- Property.IsSimple (kind table restricted to the fragment). -/
def Property.IsSimple (p : Property) : Bool := typeIsSimple p.Ty

/-- Property.IsSlice. -/
def Property.IsSlice (p : Property) : Bool :=
  match p.Ty with
  | .slice _ => true
  | _ => false

/-- Property.IsBool. -/
def Property.IsBool (p : Property) : Bool := p.Ty == .bool

/-- Property.IsIgnored: the chan/func/unsafe-pointer kinds do not occur in
the modelled fragment, so the kind-set test is constantly false here. -/
def Property.IsIgnored (_p : Property) : Bool := false

/-- Property.IsOptional: pointer-typed fields do not occur in the modelled
fragment. -/
def Property.IsOptional (_p : Property) : Bool := false

/-- Property.IsDefault: isDefaultValue of the current value. -/
def Property.IsDefault (p : Property) : Bool := valIsZero p.Value

/-- Property.ConcreteValue (no pointers in the fragment). -/
def Property.ConcreteValue (p : Property) : Val := p.Value

/-- Property.Size: length for strings/slices, the numeric value for
numbers, 0 for other kinds (bool), as an exact float64 value. -/
def Property.Size (p : Property) : GoFloat :=
  match p.Value with
  | .str s => goFloatOfInt (s.length : Int)
  | .slice xs => goFloatOfInt (xs.length : Int)
  | .int n => goFloatOfInt n
  | .bool _ => goFloatOfInt 0

/-- Property.GetPromptChoices: the declared table when non-empty; the
HasChoices capability is not implemented by the modelled kinds, so the
fallback is the empty table. -/
def Property.GetPromptChoices (p : Property) : PromptChoices :=
  if hasChoices p.Choices then p.Choices else []

/-- Options (the NewOptions configuration data).  The templates and
prompt closures of the source are modelled by the dedicated functions
below, which translate the literal defaults installed by NewOptions.
Args lives in CaptureState (it is mutated during capture); ArgPrefix is
threaded through the capture functions as the argPre parameter, so the
struct keeps only its initial value ArgPre.  getEnv models read-only
os.Getenv; regexOk/regexMatches model the external regexp package;
hasIn models whether an input file was attached (WithFiles). -/
structure Options where
  ArgPre : String := "--"
  ArgStartIndex : Int := 1
  HelpPrompt : String := "help!"
  QuitPrompt : String := "quit!"
  DiscardPrompt : String := "discard!"
  DisablePrompt : Bool := false
  ForcePrompt : Bool := false
  RepromptSliceElements : Bool := false
  RepromptMapValues : Bool := false
  RepromptOnInvalid : Nat := 5
  hasIn : Bool := false
  getEnv : String → String := fun _ => ""
  regexOk : String → Bool := fun _ => true
  regexMatches : String → String → Bool := fun _ _ => true

/-- Options.CanPrompt. -/
def Options.CanPrompt (opts : Options) : Bool :=
  opts.ForcePrompt || (opts.hasIn && !opts.DisablePrompt)

/-- The mutable state of a capture: the remaining argument tokens
(opts.Args, mutated by GetArg) and the not-yet-consumed prompt input
lines (the reads served by opts.inReader, without trailing newlines). -/
structure CaptureState where
  args : List String
  script : List String

/-- PromptOnceOptions. -/
structure PromptOnceOpts where
  Multi : Bool := false
  Hidden : Bool := false
  MultiStop : String := ""

/-- getPromptOnceOptions of a property. -/
def promptOnceOptsOf (p : Property) : PromptOnceOpts :=
  { Multi := p.PromptMulti, Hidden := p.InputHidden }

/-- Multi-line collection: read lines until one equals the stop sequence
or the input is exhausted; returns the collected lines (stop included,
it is trimmed away afterwards) and the remaining script. -/
def readMultiLines (stop : String) : List String → List String × List String
  | [] => ([], [])
  | l :: rest =>
    if l == stop then ([l], rest)
    else
      let (ls, r) := readMultiLines stop rest
      (l :: ls, r)

/-- The line-reading part of the default PromptOnce closure: one line, or
in multi mode lines until the stop sequence, then TrimRight over the
stop characters and the newline. -/
def promptRead (once : PromptOnceOpts) (script : List String) : String × List String :=
  let cut := once.MultiStop.data ++ ['\n']
  if once.Multi then
    let (ls, rest) := readMultiLines once.MultiStop script
    (trimRightSet (String.intercalate "\n" ls) cut, rest)
  else
    match script with
    | [] => ("", [])
    | l :: r => (trimRightSet l cut, r)

/-- The default PromptOnce closure of NewOptions: read the input, then
return the Quit or Discard sentinel when the input matches the
configured quit/discard token case-insensitively.  The prompt text that
the closure prints is not observable in the model. -/
def promptOnce (opts : Options) (once : PromptOnceOpts) (st : CaptureState) :
    String × CaptureState × Option GoError :=
  let (input, script') := promptRead once st.script
  let st' := { st with script := script' }
  if opts.QuitPrompt != "" && equalFold input opts.QuitPrompt then (input, st', some .quit)
  else if opts.DiscardPrompt != "" && equalFold input opts.DiscardPrompt then (input, st', some .discard)
  else (input, st', none)

/-- The promptOptions yes/no table installed by NewOptions. -/
def promptBoolOpts : List (String × Bool) :=
  [("y", true), ("yes", true), ("1", true), ("t", true), ("true", true), ("ok", true), ("", true),
   ("n", false), ("no", false), ("0", false), ("f", false), ("false", false)]

/-- Map lookup in the yes/no table. -/
def boolOptLookup (tbl : List (String × Bool)) (key : String) : Option Bool :=
  (tbl.find? (fun kv => kv.1 == key)).map (fun kv => kv.2)

/-- The repeat-until-recognized loop shared by the default PromptStart and
PromptMore closures.  Each unrecognized answer consumes one script line,
and an exhausted script reads as the empty string, which the default
table maps to yes - so the loop always terminates within script length +
1 steps, which is the fuel the callers pass. -/
def promptAsk (opts : Options) (p : Property) : Nat → CaptureState → Bool × CaptureState × Option GoError
  | 0, st => (true, st, none)
  | n + 1, st =>
    let (input, st', e) := promptOnce opts (promptOnceOptsOf p) st
    match e with
    | some err => (false, st', some err)
    | none =>
      match boolOptLookup promptBoolOpts (lowerStr input) with
      | some b => (b, st', none)
      | none => promptAsk opts p n st'

/-- Property.promptStart composed with the default PromptStart closure:
hidden prompts and a "-" start text skip the question; without prompting
the answer defaults to yes. -/
def propPromptStart (opts : Options) (p : Property) (st : CaptureState) :
    Bool × CaptureState × Option GoError :=
  if p.HidePrompt then (true, st, none)
  else if p.PromptStart == "-" then (true, st, none)
  else if !opts.CanPrompt then (true, st, none)
  else promptAsk opts p (st.script.length + 1) st

/-- Property.promptMore composed with the default PromptMore closure. -/
def propPromptMore (opts : Options) (p : Property) (st : CaptureState) :
    Bool × CaptureState × Option GoError :=
  if p.PromptMore == "" then (true, st, none)
  else if !opts.CanPrompt then (true, st, none)
  else promptAsk opts p (st.script.length + 1) st

/-- Property.promptEnd composed with the default PromptEnd closure, which
only prints text; printing is unobservable in the model and Printf never
fails here, so the result is always none. -/
def propPromptEnd (_opts : Options) (_p : Property) : Option GoError := none

/-- PromptOptions of Options.Prompt.  The GetPrompt callback and the
Prompt text only produce display text, which the model does not observe;
the default prompt template always renders without error.  Ty models the
Type field (none = nil, in which case the value defaults to a string,
mirroring the pointerOf(string) fallback). -/
structure PromptOptions where
  Ty : Option GoType := none
  Verify : Bool := false
  Multi : Bool := false
  MultiStop : String := ""
  Tries : Nat := 0
  Help : String := ""
  Regex : String := ""
  Optional : Bool := false
  Choices : PromptChoices := []
  Hidden : Bool := false

/-- PromptOptions.toOnce. -/
def PromptOptions.toOnce (po : PromptOptions) : PromptOnceOpts :=
  { Multi := po.Multi, MultiStop := po.MultiStop, Hidden := po.Hidden }

/-- The attempt loop of Options.Prompt (for i := 0; i <= Tries; i++).
Each attempt: read input (Quit/Discard propagate immediately); on the
help trigger display help and read again; empty input with Optional
returns no value; then regex check, choice conversion, and parsing at
the target type (the PromptValue and TextUnmarshaler capabilities are
absent for the built-in kinds, so parsing is SetString); an optional
verification pass re-reads and compares raw input.  Failed checks record
the failure and continue with the next attempt; exhausting the attempts
returns the last recorded failure (initially NoPrompt). -/
def promptTryLoop (opts : Options) (po : PromptOptions) :
    Nat → CaptureState → GoError → Except GoError (Option Val) × CaptureState
  | 0, st, lastErr => (.error lastErr, st)
  | n + 1, st, lastErr =>
    let once := po.toOnce
    let (input0, st1, e1) := promptOnce opts once st
    match e1 with
    | some e => (.error e, st1)
    | none =>
      let helpHit := input0 == opts.HelpPrompt && opts.HelpPrompt != "" && po.Help != ""
      let (input, st2, e2) := if helpHit then promptOnce opts once st1 else (input0, st1, none)
      match e2 with
      | some e => (.error e, st2)
      | none =>
        if input == "" && po.Optional then (.ok none, st2)
        else if po.Regex != "" && !opts.regexOk po.Regex then (.error .regexBad, st2)
        else if po.Regex != "" && !opts.regexMatches po.Regex input then
          promptTryLoop opts po n st2 .regexFailed
        else
          match (if hasChoices po.Choices then choicesConvert po.Choices input else .ok input) with
          | .error e => promptTryLoop opts po n st2 e
          | .ok parsed =>
            match parseTypeVal (po.Ty.getD .string) parsed with
            | none => promptTryLoop opts po n st2 .invalidFormat
            | some v =>
              if po.Verify then
                let (vin, st3, e3) := promptOnce opts once st2
                match e3 with
                | some e => (.error e, st3)
                | none =>
                  if vin == input then (.ok (some v), st3)
                  else promptTryLoop opts po n st3 .verifyFailed
              else (.ok (some v), st2)

/-- Options.Prompt: run the attempt loop Tries + 1 times starting from the
NoPrompt failure. -/
def Options.Prompt (opts : Options) (po : PromptOptions) (st : CaptureState) :
    Except GoError (Option Val) × CaptureState :=
  promptTryLoop opts po (po.Tries + 1) st .noPrompt

/-- The value computation of Property.Set: choice conversion (when the
table is non-empty) followed by SetString at the property's type. -/
def convParse (ty : GoType) (choices : PromptChoices) (input : String) : Except GoError Val :=
  match (if hasChoices choices then choicesConvert choices input else .ok input) with
  | .error e => .error e
  | .ok converted =>
    match parseTypeVal ty converted with
    | some v => .ok v
    | none => .error .invalidFormat

/-- Property.Set: convert and parse the input, store the value and add the
provenance flags; on failure the property is unchanged and the error is
returned. -/
def propSet (p : Property) (input : String) (addFlags : Nat) : Except GoError Property :=
  match convParse p.Ty p.GetPromptChoices input with
  | .ok v => .ok { p with Value := v, Flags := p.Flags ||| addFlags }
  | .error e => .error e

/-- Property.CanFromArgs. -/
def propCanFromArgs (p : Property) : Bool := p.Arg != "-" && !p.IsIgnored

/-- Property.CanLoad: not ignored, a simple kind, and still at the zero
value. -/
def propCanLoad (p : Property) : Bool := !p.IsIgnored && p.IsSimple && p.IsDefault

/-- The text/flag selection of Property.Load: the first non-empty declared
environment variable, else the declared default. -/
def loadText (opts : Options) (p : Property) : String × Nat :=
  match p.Env.find? (fun env => opts.getEnv env != "") with
  | some env => (opts.getEnv env, flagEnv)
  | none => if p.Default != "" then (p.Default, flagDefault) else ("", 0)

/-- Property.Load: seed the value from environment variables or the
default tag, only while the property can load (zero-valued scalar). -/
def propLoad (opts : Options) (p : Property) : Except GoError Property :=
  if !propCanLoad p then .ok p
  else
    let (text, flag) := loadText opts p
    if text != "" then propSet p text flag else .ok p

/-- Property.fromArgsSimple: take the argument by key; a non-empty value
is stored through Property.Set with the args flag. -/
def fromArgsSimpleStep (_opts : Options) (argPre : String) (st : CaptureState) (p : Property) :
    Except GoError Property × CaptureState :=
  let (v, args') := GetArg p.Arg "" st.args argPre p.IsBool
  let st' := { st with args := args' }
  if v != "" then
    match propSet p v flagArgs with
    | .ok p' => (.ok p', st')
    | .error e => (.error e, st')
  else (.ok p, st')

/-- Property.promptSimple: skip when prompt-options "empty" applies,
compute the try count, run Options.Prompt with the property's
configuration, and store a produced value with the prompt flag. -/
def promptSimpleStep (opts : Options) (st : CaptureState) (p : Property) :
    Except GoError Property × CaptureState :=
  let isDef := valIsZero p.Value && !flagHasAny p.Flags flagDefault
  if p.PromptEmpty &&
      ((!flagHasAny p.Flags flagDefault && !isDef) ||
        flagHasAny p.Flags (flagArgs ||| flagEnv ||| flagPrompt)) then
    (.ok p, st)
  else
    let tries : Nat := if p.PromptTries > 0 then p.PromptTries.toNat else opts.RepromptOnInvalid
    let po : PromptOptions :=
      { Ty := some p.Ty, Hidden := p.InputHidden, Verify := p.PromptVerify,
        Multi := p.PromptMulti, Help := p.Help, Choices := p.GetPromptChoices,
        Regex := p.Regex, Optional := p.IsOptional || !isDef, Tries := tries }
    match opts.Prompt po st with
    | (.error e, st') => (.error e, st')
    | (.ok none, st') => (.ok p, st')
    | (.ok (some v), st') => (.ok { p with Value := v, Flags := p.Flags ||| flagPrompt }, st')

/-- Property.CanPrompt. -/
def propCanPrompt (p : Property) : Bool := !p.HidePrompt && !p.IsIgnored

/-- Property.Prompt: only simple kinds are prompted here (containers
prompt inside their fromArgs handlers); the PromptCustom capability is
absent for the built-in kinds. -/
def propPromptStep (opts : Options) (st : CaptureState) (p : Property) :
    Except GoError Property × CaptureState :=
  if !propCanPrompt p then (.ok p, st)
  else if !opts.CanPrompt then (.ok p, st)
  else if p.IsSimple then promptSimpleStep opts st p
  else (.ok p, st)

/-- Property.Validate, translated verbatim.  The guard in the source is
literally `if !prop.IsIgnored() { return nil }`: every property whose
kind is NOT chan/func/unsafe-pointer returns nil immediately, so the
min/max and choice-membership checks below it are unreachable for all
ordinary properties. -/
def propValidate (p : Property) : Option GoError :=
  if !p.IsIgnored then none
  else
    let size := p.Size
    if (match p.Min with | some m => GoFloat.blt size m | none => false) then
      some (.validationMin p.Name ((p.Min).getD (goFloatOfInt 0)))
    else if (match p.Max with | some m => GoFloat.bgt size m | none => false) then
      some (.validationMax p.Name ((p.Max).getD (goFloatOfInt 0)))
    else
      let choices := p.GetPromptChoices
      if hasChoices choices then
        if choices.any (fun kv => isTextuallyEqual p.ConcreteValue kv.2.Value p.Ty) then none
        else some (.validationChoice p.Name)
      else none

/-- IsSimple of the argTemplate data: the element kind is simple when it
is not struct/array/slice/map (only slices occur among the container
kinds of the fragment). -/
def kindSimpleForTpl : GoType → Bool
  | .slice _ => false
  | _ => true

/-- Rendering of the default ArgSliceTemplate installed by NewOptions:
the prefix, the arg, and for non-simple elements a dash-wrapped index. -/
def renderSliceTpl (pre arg : String) (isSimpleElem : Bool) (idx : Int) : String :=
  pre ++ arg ++ (if isSimpleElem then "" else "-" ++ toString idx ++ "-")

/-- minimum gate with the next length (length+1 >= int(*prop.Min)). -/
def minGateSucc (m? : Option GoFloat) (length : Nat) : Bool :=
  match m? with
  | none => true
  | some m => decide (((length : Int) + 1) ≥ ratTrunc m)

/-- minimum gate (prop.Min == nil or length >= int(*prop.Min)). -/
def minGate (m? : Option GoFloat) (length : Nat) : Bool :=
  match m? with
  | none => true
  | some m => decide ((length : Int) ≥ ratTrunc m)

/-- maximum gate (prop.Max != nil and length >= int(*prop.Max)). -/
def maxGate (m? : Option GoFloat) (length : Nat) : Bool :=
  match m? with
  | none => false
  | some m => decide ((length : Int) ≥ ratTrunc m)

/-- GetSubInstance for a non-struct value: the instance holds one
synthetic property wrapping the value, inheriting Name, PromptText,
PromptMulti and Choices from the parent property and zero values for
everything else (in particular Arg is empty, so the element is addressed
purely through the argument prefix).  Struct element types are outside
the modelled fragment. -/
def subProperty (parent : Property) (v : Val) (t : GoType) : Property :=
  { Value := v, Ty := t, Name := parent.Name, PromptText := parent.PromptText,
    PromptMulti := parent.PromptMulti, Choices := parent.Choices }

/-- The property loop of Instance.Capture: capture each property in
declaration order, stopping at the first error; properties after the
failing one are untouched.  The modelled records implement neither the
Dynamic nor the Validator capability, so those hooks are no-ops. -/
def capturePropsWith
    (capOne : CaptureState → Property → Option GoError × Property × CaptureState) :
    CaptureState → List Property → Option GoError × List Property × CaptureState
  | st, [] => (none, [], st)
  | st, p :: rest =>
    match capOne st p with
    | (some e, p', st') => (some e, p' :: rest, st')
    | (none, p', st') =>
      let (e, rest', st'') := capturePropsWith capOne st' rest
      (e, p' :: rest', st'')

/-- captureValue/captureType: capture into a (sub-)value through the
synthetic sub-instance under the element argument prefix, and report the
sub-instance's flags with the non-authoritative Default/Env bits
removed.  The value is returned explicitly (it models the in-place
mutation of the element); on error the flags are empty and the value
carries whatever the partial capture wrote. -/
def captureValueWith
    (capOne : String → CaptureState → Property → Option GoError × Property × CaptureState)
    (parent : Property) (v : Val) (t : GoType) (pfx : String) (st : CaptureState) :
    Nat × Val × CaptureState × Option GoError :=
  let sp := subProperty parent v t
  match capturePropsWith (capOne pfx) st [sp] with
  | (some e, props', st') => (0, (props'.headD sp).Value, st', some e)
  | (none, props', st') =>
    let fl := flagsRemove (props'.foldl (fun a q => a ||| q.Flags) 0) (flagDefault ||| flagEnv)
    (fl, (props'.headD sp).Value, st', none)

/-- The re-prompt pass of fromArgsSlice over the pre-existing elements
(index list 0..length-1), mirroring the source's loop: capture each
element in place, discard skips the element bookkeeping, errors
propagate, and the min/max/continue gates are checked against the fixed
pre-existing length.  Returns the property (with accumulated flags), the
updated elements, the state, the surviving additionalValues flag, and an
error. -/
def sliceRepromptGo (opts : Options) (argPre : String) (tplSimple : Bool)
    (capValue : Val → String → CaptureState → Nat × Val × CaptureState × Option GoError)
    (length : Nat) :
    List Nat → Property → List Val → CaptureState →
      Property × List Val × CaptureState × Bool × Option GoError
  | [], p, xs, st => (p, xs, st, true, none)
  | i :: restIdx, p, xs, st =>
    let elemPfx := renderSliceTpl argPre p.Arg tplSimple ((i : Int) + opts.ArgStartIndex)
    let (loaded, v, st1, err) := capValue (xs.getD i (.str "")) elemPfx st
    let xs' := xs.set i v
    let keep := err != some .discard
    if (err != none) && keep then (p, xs', st1, true, err)
    else if keep then
      if loaded == 0 && minGateSucc p.Min length && !opts.CanPrompt then (p, xs', st1, true, none)
      else
        let p1 := { p with Flags := p.Flags ||| loaded }
        if maxGate p1.Max length then (p1, xs', st1, true, none)
        else if minGate p1.Min length then
          let (more, st2, errM) := propPromptMore opts p1 st1
          match errM with
          | some e => (p1, xs', st2, true, some e)
          | none =>
            if more then sliceRepromptGo opts argPre tplSimple capValue length restIdx p1 xs' st2
            else (p1, xs', st2, false, none)
        else sliceRepromptGo opts argPre tplSimple capValue length restIdx p1 xs' st1
    else
      if minGate p.Min length then
        let (more, st2, errM) := propPromptMore opts p st1
        match errM with
        | some e => (p, xs', st2, true, some e)
        | none =>
          if more then sliceRepromptGo opts argPre tplSimple capValue length restIdx p xs' st2
          else (p, xs', st2, false, none)
      else sliceRepromptGo opts argPre tplSimple capValue length restIdx p xs' st1

/-- The new-element loop of fromArgsSlice (for additionalValues { ... }):
capture a fresh element at the next index; an element that loaded
nothing ends the loop once the minimum is reachable and no prompting is
active; otherwise the element is appended and the max/min/continue gates
run against the updated length (the old length after a discard). -/
def sliceNewGo (opts : Options) (argPre : String) (tplSimple : Bool) (elemTy : GoType)
    (capType : GoType → String → CaptureState → Nat × Val × CaptureState × Option GoError) :
    Nat → Property → List Val → CaptureState →
      Property × List Val × CaptureState × Option GoError
  | 0, p, xs, st => (p, xs, st, some .noFuel)
  | fuel + 1, p, xs, st =>
    let length := xs.length
    let elemPfx := renderSliceTpl argPre p.Arg tplSimple ((length : Int) + opts.ArgStartIndex)
    let (loaded, elemV, st1, err) := capType elemTy elemPfx st
    let keep := err != some .discard
    if (err != none) && keep then (p, xs, st1, err)
    else if keep then
      if loaded == 0 && minGateSucc p.Min length && !opts.CanPrompt then (p, xs, st1, none)
      else
        let p1 := { p with Flags := p.Flags ||| loaded }
        let xs1 := xs ++ [elemV]
        if maxGate p1.Max xs1.length then (p1, xs1, st1, none)
        else if minGate p1.Min xs1.length then
          let (more, st2, errM) := propPromptMore opts p1 st1
          match errM with
          | some e => (p1, xs1, st2, some e)
          | none =>
            if more then sliceNewGo opts argPre tplSimple elemTy capType fuel p1 xs1 st2
            else (p1, xs1, st2, none)
        else sliceNewGo opts argPre tplSimple elemTy capType fuel p1 xs1 st1
    else
      if minGate p.Min length then
        let (more, st2, errM) := propPromptMore opts p st1
        match errM with
        | some e => (p, xs, st2, some e)
        | none =>
          if more then sliceNewGo opts argPre tplSimple elemTy capType fuel p xs st2
          else (p, xs, st2, none)
      else sliceNewGo opts argPre tplSimple elemTy capType fuel p xs st1

/-- Fuel for the new-element loop of the model: in every argument-driven
scenario the loop consumes an argument token, consumes a script line, or
closes the gap to the declared minimum on each iteration, so this bound
exceeds the number of iterations the source performs there. -/
def sliceFuel (p : Property) (st : CaptureState) : Nat :=
  st.args.length + st.script.length +
    (match p.Min with | some m => (ratTrunc m).toNat | none => 0) + 2

/-- Property.fromArgsSlice: ask the start question, optionally re-prompt
the pre-existing elements, then capture new elements; the slice is
committed to the field only when the resulting length is positive, and
the end message is emitted last.  On an error during the new-element
loop the appended elements are not committed (reflect.Append copies),
while re-prompt updates to pre-existing elements stay (they are written
in place). -/
def fromArgsSliceStep
    (capOne : String → CaptureState → Property → Option GoError × Property × CaptureState)
    (opts : Options) (argPre : String) (st : CaptureState) (p : Property) :
    Option GoError × Property × CaptureState :=
  let (start, st0, errS) := propPromptStart opts p st
  if errS != none || !start then (errS, p, st0)
  else
    let xs := match p.Value with | .slice l => l | _ => []
    let elemTy := match p.Ty with | .slice t => t | _ => .string
    let tplSimple := kindSimpleForTpl elemTy
    let capValue := fun (v : Val) (pfx : String) (s : CaptureState) =>
      captureValueWith capOne p v elemTy pfx s
    let capType := fun (t : GoType) (pfx : String) (s : CaptureState) =>
      captureValueWith capOne p (zeroOfType t) t pfx s
    let (p1, xs1, st1, additional, errR) :=
      if (opts.RepromptSliceElements || p.Reprompt) && opts.CanPrompt then
        sliceRepromptGo opts argPre tplSimple capValue xs.length (List.range xs.length) p xs st0
      else (p, xs, st0, true, none)
    match errR with
    | some e => (some e, { p1 with Value := .slice xs1 }, st1)
    | none =>
      let (p2, xs2, st2, errN) :=
        if additional then
          sliceNewGo opts argPre tplSimple elemTy capType (sliceFuel p1 st1) p1 xs1 st1
        else (p1, xs1, st1, none)
      match errN with
      | some e => (some e, { p2 with Value := .slice xs1 }, st2)
      | none =>
        let p3 := if xs2.length > 0 then { p2 with Value := .slice xs2 } else p2
        match propPromptEnd opts p3 with
        | some e => (some e, p3, st2)
        | none => (none, p3, st2)

/-- Property.FromArgs: guard, then dispatch by kind.  The ArgValue and
PromptCustom capabilities are absent for the built-in kinds; the
struct/array/map branches are outside the modelled fragment. -/
def propFromArgsStep
    (capOne : String → CaptureState → Property → Option GoError × Property × CaptureState)
    (opts : Options) (argPre : String) (st : CaptureState) (p : Property) :
    Option GoError × Property × CaptureState :=
  if !propCanFromArgs p then (none, p, st)
  else if p.IsSimple then
    match fromArgsSimpleStep opts argPre st p with
    | (.ok p', st') => (none, p', st')
    | (.error e, st') => (some e, p, st')
  else if p.IsSlice then fromArgsSliceStep capOne opts argPre st p
  else (none, p, st)

/-- One full capture cycle for one property (the loop body of
Instance.Capture): Load, FromArgs, Prompt, Validate, stopping at the
first error.  The fuel bounds the recursion into sub-instances; every
theorem supplies fuel above the nesting depth it needs. -/
def captureOne : Nat → Options → String → CaptureState → Property →
    Option GoError × Property × CaptureState
  | 0, _, _, st, p => (some .noFuel, p, st)
  | fuel + 1, opts, argPre, st, p =>
    match propLoad opts p with
    | .error e => (some e, p, st)
    | .ok p1 =>
      match propFromArgsStep (captureOne fuel opts) opts argPre st p1 with
      | (some e, p2, st2) => (some e, p2, st2)
      | (none, p2, st2) =>
        match propPromptStep opts st2 p2 with
        | (.error e, st3) => (some e, p2, st3)
        | (.ok p3, st3) =>
          match propValidate p3 with
          | some e => (some e, p3, st3)
          | none => (none, p3, st3)

/-- Instance.Capture over the instance's property list, starting from the
options' configured argument prefix. -/
def Capture (fuel : Nat) (opts : Options) (st : CaptureState) (props : List Property) :
    Option GoError × List Property × CaptureState :=
  capturePropsWith (captureOne fuel opts opts.ArgPre) st props

/-- reflect.Kind of the value handed to Unmarshal. -/
inductive GoKind where
  | ptr
  | strct
  | str
  | int
  | bool
  | slice
  | map
deriving DecidableEq

/-- The any-typed target handed to Unmarshal: its reflect.Kind and, for a
pointer to a record, the record's property list. -/
structure GoTarget where
  kind : GoKind
  props : List Property

/-- Unmarshal: nil or a non-pointer value yields InvalidUnmarshalError
before any capture runs; otherwise the target's instance is captured.
The returned state and target expose whether anything was modified. -/
def Unmarshal (fuel : Nat) (opts : Options) (st : CaptureState) (v : Option GoTarget) :
    Option GoError × CaptureState × Option GoTarget :=
  match v with
  | none => (some .invalidUnmarshal, st, none)
  | some t =>
    if t.kind != .ptr then (some .invalidUnmarshal, st, some t)
    else
      let (e, props', st') := Capture fuel opts st t.props
      (e, st', some { t with props := props' })

/-- The struct-tag annotations read by getStructProperty (Lookup results
per tag key; none = tag absent).  The Go tag key "default" is the field
defaultTag, "options" is optionsTag, "min"/"max" are minTag/maxTag. -/
structure StructTag where
  prompt : Option String := none
  promptOptions : Option String := none
  help : Option String := none
  defaultMode : Option String := none
  defaultTag : Option String := none
  defaultText : Option String := none
  regex : Option String := none
  env : Option String := none
  arg : Option String := none
  minTag : Option String := none
  maxTag : Option String := none
  optionsTag : Option String := none

/-- One iteration of the prompt-options loop of getStructProperty.  An
unparsable "tries" value panics at construction time; the panic is
modelled as Except.error carrying the panic text. -/
def applyPromptOption (p : Property) (opt : String) : Except String Property :=
  if opt == "" then .ok p
  else
    let kv := opt.splitOn ":"
    let key := lowerStr (kv.headD "")
    let value := match kv with | _ :: v :: _ => v | _ => ""
    if key == "multi" then .ok { p with PromptMulti := true }
    else if key == "reprompt" then .ok { p with Reprompt := true }
    else if key == "start" then .ok { p with PromptStart := value }
    else if key == "end" then .ok { p with PromptEnd := value }
    else if key == "more" then .ok { p with PromptMore := value }
    else if key == "hidden" then .ok { p with InputHidden := true }
    else if key == "verify" then .ok { p with PromptVerify := true }
    else if key == "empty" then .ok { p with PromptEmpty := true }
    else if key == "tries" then
      match parseGoInt 32 value with
      | some n => .ok { p with PromptTries := n }
      | none => .error "tries is not a valid int32"
    else .ok p

/-- The prompt-options loop over the comma-split entries. -/
def applyPromptOptions (p : Property) : List String → Except String Property
  | [] => .ok p
  | o :: rest =>
    match applyPromptOption p o with
    | .error e => .error e
    | .ok p' => applyPromptOptions p' rest

/-- The opening of getStructProperty: the base descriptor with the
literal defaults of the source (prompt text = field name and the
start/more/end question texts derived from it, honoring the prompt
tag). -/
def basePropertyOf (fieldName : String) (tag : StructTag) (value : Val) (ty : GoType) :
    Property :=
  let p : Property := { Value := value, Ty := ty, Name := fieldName }
  let p := { p with PromptText := fieldName }
  let p :=
    match tag.prompt with
    | some t => { p with PromptText := t, HidePrompt := t == "-" }
    | none => p
  { p with PromptStart := p.PromptText ++ "?",
           PromptMore := "More " ++ p.PromptText ++ "?",
           PromptEnd := "End " ++ p.PromptText }

/-- The help/default-mode/default/default-text/regex/env/arg section of
getStructProperty (arg defaults to the field name; a declared arg is
normalized). -/
def applyTailTags (tag : StructTag) (p : Property) : Property :=
  let p := match tag.help with | some h => { p with Help := h } | none => p
  let p :=
    match tag.defaultMode with
    | some m => { p with HideDefault := equalFold m "hide" }
    | none => p
  let p := match tag.defaultTag with | some d => { p with Default := d } | none => p
  let p := match tag.defaultText with | some d => { p with DefaultText := d } | none => p
  let p := match tag.regex with | some r => { p with Regex := r } | none => p
  let p :=
    match tag.env with
    | some e => if e != "" then { p with Env := e.splitOn "," } else p
    | none => p
  match tag.arg with
  | some a => { p with Arg := Normalize a }
  | none => { p with Arg := p.Name }

/-- The min-tag section of getStructProperty: an unparsable min panics
(modelled as Except.error). -/
def applyMinTag (fieldName : String) (m? : Option String) (p : Property) :
    Except String Property :=
  match m? with
  | some s =>
    match parseGoFloat s with
    | some q => .ok { p with Min := some q }
    | none => .error ("min of " ++ fieldName ++ " is not a valid float64")
  | none => .ok p

/-- The max-tag section of getStructProperty: an unparsable max panics
(modelled as Except.error). -/
def applyMaxTag (fieldName : String) (m? : Option String) (p : Property) :
    Except String Property :=
  match m? with
  | some s =>
    match parseGoFloat s with
    | some q => .ok { p with Max := some q }
    | none => .error ("max of " ++ fieldName ++ " is not a valid float64")
  | none => .ok p

/-- The options-tag section of getStructProperty: start from the empty
choice table and fill it from a non-empty options tag. -/
def applyOptionsTag (o? : Option String) (p : Property) : Property :=
  let p := { p with Choices := [] }
  match o? with
  | some o => if o != "" then { p with Choices := choicesFromTag [] o "," ":" } else p
  | none => p

/-- getStructProperty: build the Property for a struct field from its
declared annotations, in the source's order: base texts, the
prompt-options loop, the scalar tags, min, max, and the choice table.
A min/max/tries annotation that does not parse as a number panics at
construction time; the panic is modelled as Except.error. -/
def getStructProperty (fieldName : String) (tag : StructTag) (value : Val) (ty : GoType) :
    Except String Property :=
  match (match tag.promptOptions with
         | some s => applyPromptOptions (basePropertyOf fieldName tag value ty) (s.splitOn ",")
         | none => Except.ok (basePropertyOf fieldName tag value ty)) with
  | .error e => .error e
  | .ok p =>
    match applyMinTag fieldName tag.minTag (applyTailTags tag p) with
    | .error e => .error e
    | .ok p =>
      match applyMaxTag fieldName tag.maxTag p with
      | .error e => .error e
      | .ok p => .ok (applyOptionsTag tag.optionsTag p)

/-- Is an Except a success? -/
def exceptOk {ε α : Type} : Except ε α → Bool
  | .ok _ => true
  | .error _ => false

/-- Are all "tries" entries of a split prompt-options list parsable as
int32? -/
def triesEntriesOk (entries : List String) : Bool :=
  entries.all (fun o =>
    if o == "" then true
    else
      let kv := o.splitOn ":"
      if lowerStr (kv.headD "") == "tries" then
        (parseGoInt 32 (match kv with | _ :: v :: _ => v | _ => "")).isSome
      else true)

/-- Are the numeric annotations of a tag set well formed: min and max
parse as float64 when present, and every tries entry of prompt-options
parses as int32? -/
def tagsNumericOk (tag : StructTag) : Bool :=
  (match tag.minTag with | none => true | some s => (parseGoFloat s).isSome) &&
  (match tag.maxTag with | none => true | some s => (parseGoFloat s).isSome) &&
  (match tag.promptOptions with | none => true | some s => triesEntriesOk (s.splitOn ","))

/-! Concrete records and options used by the theorems. -/

/-- Options as produced by NewOptions with no input file attached:
prompting is disabled, the argument prefix is "--". -/
def quietOptions : Options := {}

/-- Options as produced by NewOptions().Std(): an input file is attached,
so prompting is enabled. -/
def promptingOptions : Options := { hasIn := true }

/-- The descriptor that getStructProperty builds for a field
Name string with the tag min:"2" (the end-to-end record of the spec). -/
def nameMinProp : Property :=
  { Value := .str "", Ty := .string, Name := "Name", PromptText := "Name",
    PromptStart := "Name?", PromptMore := "More Name?", PromptEnd := "End Name",
    Arg := "Name", Min := some ⟨2, 1⟩ }

/-- nameMinProp after capturing the arguments ["--name", "A"]. -/
def nameMinCaptured : Property := { nameMinProp with Value := .str "A", Flags := flagArgs }

/-- A growable list field Tags []string with no min/max. -/
def tagsProp : Property :=
  { Value := .slice [], Ty := .slice .string, Name := "Tags", PromptText := "Tags",
    PromptStart := "Tags?", PromptMore := "More Tags?", PromptEnd := "End Tags",
    Arg := "Tags" }

/-- tagsProp after one capture of the arguments ["--tags", "x"]. -/
def tagsCaptured : Property := { tagsProp with Value := .slice [.str "x"], Flags := flagArgs }

/-- tagsProp after re-running the same capture against the already
populated record: the argument-derived element is appended again. -/
def tagsTwice : Property :=
  { tagsProp with Value := .slice [.str "x", .str "x"], Flags := flagArgs }

/-- The choice table {apple:1, blue:2, banana:3} with normalized keys. -/
def fruitChoices : PromptChoices :=
  [("apple", ⟨"apple", "1"⟩), ("blue", ⟨"blue", "2"⟩), ("banana", ⟨"banana", "3"⟩)]

/-- A plain string field A (used as the quitting property). -/
def fieldA : Property :=
  { Value := .str "", Ty := .string, Name := "A", PromptText := "A", Arg := "A" }

/-- A plain string field B declared after A. -/
def fieldB : Property :=
  { Value := .str "", Ty := .string, Name := "B", PromptText := "B", Arg := "B" }

/-- A growable list field Nums []string with min:"1". -/
def numsMinProp : Property :=
  { Value := .slice [], Ty := .slice .string, Name := "Nums", PromptText := "Nums",
    PromptStart := "Nums?", PromptMore := "More Nums?", PromptEnd := "End Nums",
    Arg := "Nums", Min := some ⟨1, 1⟩ }

/-- A string field with an environment variable and a declared default
(the Echo example's shape). -/
def seededProp : Property :=
  { Value := .str "", Ty := .string, Name := "Name", PromptText := "Name",
    Arg := "Name", Env := ["NAME"], Default := "fallback" }

/-- Options whose environment carries NAME=fromenv. -/
def envOptions : Options :=
  { getEnv := fun k => if k == "NAME" then "fromenv" else "" }

/-- seededProp after Load found the environment value. -/
def seededLoaded : Property := { seededProp with Value := .str "fromenv", Flags := flagEnv }

/-- A zero-valued plain string field Name (no env, no default). -/
def nameProp0 : Property :=
  { Value := .str "", Ty := .string, Name := "Name", PromptText := "Name", Arg := "Name" }

/-- A zero-valued int field Age. -/
def ageProp0 : Property :=
  { Value := .int 0, Ty := .int, Name := "Age", PromptText := "Age", Arg := "Age" }

/-- nameProp0 after capturing the arguments ["--name", "Al"]. -/
def nameAl : Property := { nameProp0 with Value := .str "Al", Flags := flagArgs }

/-- ageProp0 after capturing the arguments ["--age", "9"]. -/
def ageNine : Property := { ageProp0 with Value := .int 9, Flags := flagArgs }

/-- An int field Age with a declared default of 7 (the Echo example's
Age *int shape, with a default seed). -/
def ageDefProp : Property :=
  { Value := .int 0, Ty := .int, Name := "Age", PromptText := "Age", Arg := "Age",
    Default := "7" }

/-- ageDefProp after Load applied the declared default. -/
def ageDefLoaded : Property := { ageDefProp with Value := .int 7, Flags := flagDefault }

/-! Supporting lemmas. -/

/-- Validate never reports anything for a property of an ordinary kind:
the inverted guard returns nil whenever the property is NOT ignored, and
no kind of the modelled fragment is ignored. -/
theorem propValidate_always_none (p : Property) : propValidate p = none := by
  unfold propValidate Property.IsIgnored
  rfl

/-- With prompting unavailable the prompt stage leaves the property and
the state untouched. -/
theorem propPromptStep_noprompt (opts : Options) (st : CaptureState) (p : Property)
    (hcp : opts.CanPrompt = false) :
    propPromptStep opts st p = (.ok p, st) := by
  unfold propPromptStep
  rw [hcp]
  by_cases h : propCanPrompt p <;> simp [h]

/-- With prompting unavailable the start question is answered yes without
touching the state. -/
theorem propPromptStart_noprompt (opts : Options) (p : Property) (st : CaptureState)
    (hcp : opts.CanPrompt = false) :
    propPromptStart opts p st = (true, st, none) := by
  unfold propPromptStart
  rw [hcp]
  by_cases h1 : p.HidePrompt <;> by_cases h2 : p.PromptStart == "-" <;> simp [h1, h2]

/-- One capture cycle is Load followed by FromArgs when prompting is
unavailable (Prompt is the identity and Validate never fires). -/
theorem captureOne_noprompt_eq (fuel : Nat) (opts : Options) (argPre : String)
    (st : CaptureState) (p : Property) (hcp : opts.CanPrompt = false) :
    captureOne (fuel + 1) opts argPre st p =
      match propLoad opts p with
      | .error e => (some e, p, st)
      | .ok p1 => propFromArgsStep (captureOne fuel opts) opts argPre st p1 := by
  unfold captureOne
  cases hload : propLoad opts p with
  | error e => rfl
  | ok p1 =>
    cases hargs : propFromArgsStep (captureOne fuel opts) opts argPre st p1 with
    | mk e rest =>
      obtain ⟨p2, st2⟩ := rest
      cases e with
      | some err => simp [hargs]
      | none => simp [hargs, propPromptStep_noprompt opts st2 p2 hcp, propValidate_always_none]

/-- A successful Set only changes Value and Flags: every configuration
field survives. -/
theorem propSet_preserves (p : Property) (s : String) (f : Nat) (p' : Property)
    (h : propSet p s f = .ok p') :
    p'.Ty = p.Ty ∧ p'.Choices = p.Choices ∧ p'.Arg = p.Arg ∧ p'.Env = p.Env ∧
      p'.Default = p.Default ∧ p'.Name = p.Name := by
  unfold propSet at h
  cases hc : convParse p.Ty p.GetPromptChoices s with
  | ok v => rw [hc] at h; cases h; exact ⟨rfl, rfl, rfl, rfl, rfl, rfl⟩
  | error e => rw [hc] at h; cases h

/-- A successful Set stores exactly the converted-and-parsed value and
adds the given flags. -/
theorem propSet_ok_shape (p : Property) (s : String) (f : Nat) (p' : Property)
    (h : propSet p s f = .ok p') :
    ∃ v, convParse p.Ty p.GetPromptChoices s = .ok v ∧
      p' = { p with Value := v, Flags := p.Flags ||| f } := by
  unfold propSet at h
  cases hc : convParse p.Ty p.GetPromptChoices s with
  | ok v => rw [hc] at h; cases h; exact ⟨v, rfl, rfl⟩
  | error e => rw [hc] at h; cases h

/-- A successful Set exists whenever conversion-and-parsing succeeds. -/
theorem propSet_of_convParse (p : Property) (s : String) (f : Nat) (v : Val)
    (h : convParse p.Ty p.GetPromptChoices s = .ok v) :
    propSet p s f = .ok { p with Value := v, Flags := p.Flags ||| f } := by
  unfold propSet
  rw [h]

/-- A successful Load only changes Value and Flags. -/
theorem propLoad_preserves (opts : Options) (p p' : Property)
    (h : propLoad opts p = .ok p') :
    p'.Ty = p.Ty ∧ p'.Choices = p.Choices ∧ p'.Arg = p.Arg ∧ p'.Env = p.Env ∧
      p'.Default = p.Default ∧ p'.Name = p.Name := by
  unfold propLoad at h
  by_cases hcl : propCanLoad p
  · rw [if_neg (by simp [hcl])] at h
    rcases hlt : loadText opts p with ⟨text, flag⟩
    simp only [hlt] at h
    by_cases ht : text != ""
    · rw [if_pos ht] at h
      exact propSet_preserves p text flag p' h
    · rw [if_neg ht] at h
      cases h
      exact ⟨rfl, rfl, rfl, rfl, rfl, rfl⟩
  · rw [if_pos (by simp [hcl])] at h
    cases h
    exact ⟨rfl, rfl, rfl, rfl, rfl, rfl⟩

/-- Loading is the identity on a property that is not at its zero
value. -/
theorem propLoad_nonzero (opts : Options) (p : Property)
    (h : valIsZero p.Value = false) : propLoad opts p = .ok p := by
  unfold propLoad propCanLoad Property.IsDefault
  rw [h]
  simp

/-- Loading on a loadable (zero-valued scalar) property runs the selected
environment/default text through Set. -/
theorem propLoad_canload (opts : Options) (p : Property) (h : propCanLoad p = true)
    (text : String) (flag : Nat) (hlt : loadText opts p = (text, flag)) :
    propLoad opts p = (if text != "" then propSet p text flag else .ok p) := by
  unfold propLoad
  simp only [h, hlt, Bool.not_true, Bool.false_eq_true, if_false]

/-- The empty string never fold-equals a non-empty string. -/
theorem equalFold_empty_left (s : String) (h : s ≠ "") : equalFold "" s = false := by
  unfold equalFold lowerStr
  cases s with
  | mk data =>
    cases data with
    | nil => exact absurd rfl h
    | cons c cs => simp [String.ext_iff]

/-- The empty string does not beq-match a non-empty string. -/
theorem beq_empty_left (s : String) (h : s ≠ "") : ("" == s) = false := by
  cases s with
  | mk data =>
    cases data with
    | nil => exact absurd rfl h
    | cons c cs => simp [String.ext_iff]

/-- TrimRight is the identity when no character of the string belongs to
the cut set. -/
theorem trimRightSet_id (s : String) (cut : List Char)
    (h : ∀ c ∈ s.data, !cut.contains c) : trimRightSet s cut = s := by
  unfold trimRightSet
  have hrev : ∀ c ∈ s.data.reverse, !cut.contains c := by
    intro c hc
    exact h c (List.mem_reverse.mp hc)
  have : s.data.reverse.dropWhile (fun c => cut.contains c) = s.data.reverse := by
    cases hr : s.data.reverse with
    | nil => rfl
    | cons c cs =>
      have hc : !cut.contains c := by
        apply hrev
        rw [hr]
        exact List.mem_cons_self c cs
      rw [List.dropWhile_cons_of_neg]
      simp at hc
      simp [hc]
  rw [this, List.reverse_reverse]

/-- Splitting the capture of an appended property list at the join:
either the first part fails (and the second is untouched), or the second
part continues from the first part's final state. -/
theorem capturePropsWith_append
    (f : CaptureState → Property → Option GoError × Property × CaptureState)
    (st : CaptureState) (xs ys : List Property) :
    capturePropsWith f st (xs ++ ys) =
      (match capturePropsWith f st xs with
       | (some e, xs', st') => (some e, xs' ++ ys, st')
       | (none, xs', st') =>
         match capturePropsWith f st' ys with
         | (e, ys', st'') => (e, xs' ++ ys', st'')) := by
  induction xs generalizing st with
  | nil => simp [capturePropsWith]
  | cons p rest ih =>
    simp only [List.cons_append, capturePropsWith]
    cases hp : f st p with
    | mk e tail =>
      obtain ⟨p', st'⟩ := tail
      cases e with
      | some err => rfl
      | none =>
        have ihh := ih st'
        simp only [List.append_eq] at ihh ⊢
        rw [ihh]
        cases hrest : capturePropsWith f st' rest with
        | mk e2 tail2 =>
          obtain ⟨rest', st''⟩ := tail2
          cases e2 with
          | some err2 => rfl
          | none =>
            cases hys : capturePropsWith f st'' ys with
            | mk e3 tail3 =>
              obtain ⟨ys', st3⟩ := tail3
              rfl

/-- C1: the spec demands that capturing a record whose string field
declares min:"2" from the arguments ["--name","A"] with prompting
disabled returns a ValidationError naming the field.  The code does not:
Validate's inverted guard (if !prop.IsIgnored() return nil) skips the
min/max and choice checks for every ordinary property, so the capture
succeeds with Name = "A" even though the captured size 1 is below the
declared minimum 2, and Validate returns nil on the violating
property. -/
theorem c1_min_violation_not_reported :
    getStructProperty "Name" { minTag := some "2" } (.str "") .string = .ok nameMinProp ∧
    Capture 4 quietOptions ⟨["--name", "A"], []⟩ [nameMinProp] =
      (none, [nameMinCaptured], ⟨[], []⟩) ∧
    nameMinCaptured.Value = .str "A" ∧
    GoFloat.blt nameMinCaptured.Size ⟨2, 1⟩ = true ∧
    propValidate nameMinCaptured = none :=
  ⟨rfl, rfl, rfl, rfl, rfl⟩

/-- C8: GetArg("age", "", ["--age","5","--x"], "--", false) returns "5"
and leaves the token list ["--x"] (the name token and its value token
are removed); matching is case/punctuation-insensitive on the
prefix-stripped key, so "--AGE" and "--a_g-e" and a differently-cased
target name extract the same value. -/
theorem c8_getarg_example :
    GetArg "age" "" ["--age", "5", "--x"] "--" false = ("5", ["--x"]) ∧
    GetArg "age" "" ["--AGE", "5", "--x"] "--" false = ("5", ["--x"]) ∧
    GetArg "AGE" "" ["--a_g-e", "5", "--x"] "--" false = ("5", ["--x"]) :=
  ⟨rfl, rfl, rfl⟩

/-- C3 counterexample: capture is not idempotent for slice fields.
Capturing Tags []string from ["--tags","x"] yields ["x"]; re-running the
same capture against the already-populated record appends the
argument-derived element again, yielding ["x","x"] - not byte-identical
field values. -/
theorem c3_counterexample_slice_recapture :
    Capture 6 quietOptions ⟨["--tags", "x"], []⟩ [tagsProp] =
      (none, [tagsCaptured], ⟨[], []⟩) ∧
    Capture 6 quietOptions ⟨["--tags", "x"], []⟩ [tagsCaptured] =
      (none, [tagsTwice], ⟨[], []⟩) ∧
    tagsCaptured.Value = .slice [.str "x"] ∧
    tagsTwice.Value = .slice [.str "x", .str "x"] ∧
    tagsTwice.Value ≠ tagsCaptured.Value := by
  refine ⟨rfl, rfl, rfl, rfl, ?_⟩
  intro h
  have hlen := congrArg (fun v => match v with | Val.slice xs => xs.length | _ => 0) h
  simp only [tagsTwice, tagsCaptured] at hlen
  simp at hlen

/-- C10: Unmarshal called on nil or on any non-pointer value returns the
InvalidUnmarshalError sentinel without running any capture: the state
(argument list and prompt input) and the target are returned
unmodified. -/
theorem c10_unmarshal_guard (fuel : Nat) (opts : Options) (st : CaptureState)
    (v : Option GoTarget)
    (h : v = none ∨ ∃ t, v = some t ∧ t.kind ≠ .ptr) :
    Unmarshal fuel opts st v = (some .invalidUnmarshal, st, v) := by
  rcases h with h | ⟨t, hv, hk⟩
  · subst h; rfl
  · subst hv
    simp [Unmarshal, hk]

/-- C10 witness: a non-pointer target with pending arguments is rejected
unchanged. -/
theorem c10_unmarshal_guard_witness :
    Unmarshal 4 quietOptions ⟨["--x", "1"], []⟩ (some ⟨.int, [fieldA]⟩) =
      (some .invalidUnmarshal, ⟨["--x", "1"], []⟩, some ⟨.int, [fieldA]⟩) :=
  c10_unmarshal_guard 4 quietOptions ⟨["--x", "1"], []⟩ (some ⟨.int, [fieldA]⟩)
    (Or.inr ⟨⟨.int, [fieldA]⟩, rfl, by decide⟩)

/-- C5: PromptChoices.Convert - an empty table passes every input through
unchanged; on {apple:1, blue:2, banana:3} the input "ba" resolves by
unique prefix to "3" while "b" is ambiguous and errors; in general an
exact normalized match returns that key's value, a unique normalized
prefix match returns that key's value, and zero or multiple prefix
matches yield the InvalidConversion error. -/
theorem c5_choices_convert :
    (∀ s : String, choicesConvert [] s = .ok s) ∧
    choicesConvert fruitChoices "ba" = .ok "3" ∧
    choicesConvert fruitChoices "b" = .error .invalidConversion ∧
    (∀ (pc : PromptChoices) (input : String) (c : PromptChoice),
      hasChoices pc = true →
      choicesLookup pc (Normalize input) = some c →
      choicesConvert pc input = .ok c.Value) ∧
    (∀ (pc : PromptChoices) (input v : String),
      choicesLookup pc (Normalize input) = none →
      (Normalize input).length > 0 →
      (pc.filter (fun kv => goHasPfx (lowerStr kv.1) (Normalize input))).map
          (fun kv => kv.2.Value) = [v] →
      choicesConvert pc input = .ok v) ∧
    (∀ (pc : PromptChoices) (input : String),
      hasChoices pc = true →
      choicesLookup pc (Normalize input) = none →
      ((pc.filter (fun kv => goHasPfx (lowerStr kv.1) (Normalize input))).map
          (fun kv => kv.2.Value)).length ≠ 1 →
      choicesConvert pc input = .error .invalidConversion) := by
  refine ⟨fun s => rfl, rfl, rfl, ?_, ?_, ?_⟩
  · intro pc input c hpc hlook
    unfold choicesConvert
    simp [hpc, hlook]
  · intro pc input v hlook hlen hfilter
    have hpc : hasChoices pc = true := by
      cases pc with
      | nil => simp at hfilter
      | cons a rest => simp [hasChoices]
    unfold choicesConvert
    simp only [hpc, Bool.not_true, Bool.false_eq_true, if_false, hlook]
    rw [if_pos hlen, hfilter]
    rfl
  · intro pc input hpc hlook hlen
    unfold choicesConvert
    simp only [hpc, Bool.not_true, Bool.false_eq_true, if_false, hlook]
    by_cases hk : (Normalize input).length > 0
    · rw [if_pos hk, if_neg hlen]
    · rw [if_neg hk]

/-- C5 witness: the general clauses applied at concrete inputs - an exact
match on "APPLE", a unique prefix match on "blu", no match on "zz". -/
theorem c5_choices_convert_witness :
    choicesConvert fruitChoices "APPLE" = .ok "1" ∧
    choicesConvert fruitChoices "blu" = .ok "2" ∧
    choicesConvert fruitChoices "zz" = .error .invalidConversion :=
  ⟨c5_choices_convert.2.2.2.1 fruitChoices "APPLE" ⟨"apple", "1"⟩ rfl rfl,
   c5_choices_convert.2.2.2.2.1 fruitChoices "blu" "2" rfl (by decide) rfl,
   c5_choices_convert.2.2.2.2.2 fruitChoices "zz" rfl rfl (by decide)⟩

/-- Reading an empty line in single-line mode yields the empty input and
never triggers the quit/discard sentinels. -/
theorem promptOnce_empty (opts : Options) (once : PromptOnceOpts)
    (args rest : List String) (hm : once.Multi = false) (hs : once.MultiStop = "") :
    promptOnce opts once ⟨args, "" :: rest⟩ = ("", ⟨args, rest⟩, none) := by
  unfold promptOnce promptRead
  rw [hm, hs]
  simp only [Bool.false_eq_true, if_false]
  have htrim : trimRightSet "" ("".data ++ ['\n']) = "" := rfl
  rw [htrim]
  by_cases hq : opts.QuitPrompt = ""
  · by_cases hd : opts.DiscardPrompt = ""
    · simp [hq, hd]
    · simp [hq, equalFold_empty_left opts.DiscardPrompt hd]
  · by_cases hd : opts.DiscardPrompt = ""
    · simp [hd, equalFold_empty_left opts.QuitPrompt hq]
    · simp [equalFold_empty_left opts.QuitPrompt hq, equalFold_empty_left opts.DiscardPrompt hd]

/-- C7 counterexample: with optional=false, a plain string target, no
regex and no choices, the empty input IS accepted as the attempt's value
on the first try (returning the empty string), contradicting "empty
input is never accepted as the attempt's value for any target type". -/
theorem c7_counterexample_empty_string_accepted :
    Options.Prompt promptingOptions { Ty := some .string, Optional := false, Tries := 5 }
        ⟨[], [""]⟩ =
      (.ok (some (.str "")), ⟨[], []⟩) :=
  rfl

/-- C7 (amended): empty input with optional=true immediately returns no
value; with optional=false the empty input is processed like any other
input - for a plain string target it is accepted as the empty-string
value on the same attempt, while for a target it cannot parse to (int)
the attempt continues to the next try, and exhausting the tries returns
the invalid-format failure. -/
theorem c7_empty_input_amended :
    (∀ (opts : Options) (po : PromptOptions) (args rest : List String),
      po.Optional = true → po.Multi = false → po.MultiStop = "" →
      Options.Prompt opts po ⟨args, "" :: rest⟩ = (.ok none, ⟨args, rest⟩)) ∧
    Options.Prompt promptingOptions { Ty := some .string, Optional := false, Tries := 5 }
        ⟨[], [""]⟩ =
      (.ok (some (.str "")), ⟨[], []⟩) ∧
    Options.Prompt promptingOptions { Ty := some .int, Optional := false, Tries := 5 }
        ⟨[], ["", "7"]⟩ =
      (.ok (some (.int 7)), ⟨[], []⟩) ∧
    Options.Prompt promptingOptions { Ty := some .int, Optional := false, Tries := 0 }
        ⟨[], [""]⟩ =
      (.error .invalidFormat, ⟨[], []⟩) := by
  refine ⟨?_, rfl, rfl, rfl⟩
  intro opts po args rest hopt hmulti hstop
  unfold Options.Prompt
  simp only [promptTryLoop]
  rw [promptOnce_empty opts po.toOnce args rest (by simp [PromptOptions.toOnce, hmulti])
        (by simp [PromptOptions.toOnce, hstop])]
  have hhelp : ("" == opts.HelpPrompt && opts.HelpPrompt != "" && po.Help != "") = false := by
    by_cases hh : opts.HelpPrompt = ""
    · simp [hh]
    · simp [beq_empty_left opts.HelpPrompt hh]
  simp only [hhelp, Bool.false_eq_true, if_false, hopt]
  simp

/-- C7 witness: the optional=true clause applied at a concrete prompt -
empty input returns no value and consumes exactly the empty line. -/
theorem c7_empty_input_amended_witness :
    Options.Prompt promptingOptions { Ty := some .string, Optional := true, Tries := 5 }
        ⟨["--a"], ["", "x"]⟩ =
      (.ok none, ⟨["--a"], ["x"]⟩) :=
  c7_empty_input_amended.1 promptingOptions
    { Ty := some .string, Optional := true, Tries := 5 } ["--a"] ["x"] rfl rfl rfl

/-- One prompt-options entry succeeds in construction exactly when it is
not a "tries" entry with an unparsable value. -/
theorem applyPromptOption_ok (p : Property) (o : String) :
    exceptOk (applyPromptOption p o) =
      (if o == "" then true
       else
         if lowerStr ((o.splitOn ":").headD "") == "tries" then
           (parseGoInt 32 (match o.splitOn ":" with | _ :: v :: _ => v | _ => "")).isSome
         else true) := by
  unfold applyPromptOption
  by_cases h0 : (o == "") = true
  · simp [h0, exceptOk]
  · rw [Bool.not_eq_true] at h0
    simp only [h0, Bool.false_eq_true, if_false]
    by_cases ht : (lowerStr ((o.splitOn ":").headD "") == "tries") = true
    · have hk : lowerStr ((o.splitOn ":").headD "") = "tries" := eq_of_beq ht
      rw [hk]
      simp only [show (("tries" : String) == "multi") = false from rfl,
        show (("tries" : String) == "reprompt") = false from rfl,
        show (("tries" : String) == "start") = false from rfl,
        show (("tries" : String) == "end") = false from rfl,
        show (("tries" : String) == "more") = false from rfl,
        show (("tries" : String) == "hidden") = false from rfl,
        show (("tries" : String) == "verify") = false from rfl,
        show (("tries" : String) == "empty") = false from rfl,
        show (("tries" : String) == "tries") = true from rfl,
        Bool.false_eq_true, if_false, if_true]
      cases hp : parseGoInt 32 (match o.splitOn ":" with | _ :: v :: _ => v | _ => "") <;>
        simp [exceptOk, hp]
    · rw [Bool.not_eq_true] at ht
      rw [ht]
      simp only [Bool.false_eq_true, if_false]
      split_ifs <;> simp_all [exceptOk]

/-- The prompt-options loop succeeds in construction exactly when every
"tries" entry parses, regardless of the starting property. -/
theorem applyPromptOptions_ok (l : List String) :
    ∀ p : Property, exceptOk (applyPromptOptions p l) = triesEntriesOk l := by
  induction l with
  | nil => intro p; rfl
  | cons o rest ih =>
    intro p
    have hcons : triesEntriesOk (o :: rest) =
        ((if o == "" then true
          else
            if lowerStr ((o.splitOn ":").headD "") == "tries" then
              (parseGoInt 32 (match o.splitOn ":" with | _ :: v :: _ => v | _ => "")).isSome
            else true) && triesEntriesOk rest) := by
      unfold triesEntriesOk
      rw [List.all_cons]
    rw [hcons]
    unfold applyPromptOptions
    cases happ : applyPromptOption p o with
    | error e =>
      have := applyPromptOption_ok p o
      rw [happ] at this
      rw [← this]
      simp [exceptOk]
    | ok p' =>
      have := applyPromptOption_ok p o
      rw [happ] at this
      rw [← this]
      simp only [exceptOk, Bool.true_and]
      exact ih p'

/-- C9: descriptor construction fails fatally (the construction-time
panic, modelled as Except.error) exactly when a declared min, max, or
prompt-options tries annotation cannot be parsed as a number; for
well-formed numeric annotations construction never panics - there is no
other failure path. -/
theorem c9_descriptor_numeric_panics (fieldName : String) (tag : StructTag)
    (value : Val) (ty : GoType) :
    exceptOk (getStructProperty fieldName tag value ty) = tagsNumericOk tag := by
  have hmin : ∀ p : Property, exceptOk (applyMinTag fieldName tag.minTag p) =
      (match tag.minTag with | none => true | some s => (parseGoFloat s).isSome) := by
    intro p
    cases tag.minTag with
    | none => rfl
    | some s =>
      unfold applyMinTag
      cases hps : parseGoFloat s <;> simp [exceptOk, hps]
  have hmax : ∀ p : Property, exceptOk (applyMaxTag fieldName tag.maxTag p) =
      (match tag.maxTag with | none => true | some s => (parseGoFloat s).isSome) := by
    intro p
    cases tag.maxTag with
    | none => rfl
    | some s =>
      unfold applyMaxTag
      cases hps : parseGoFloat s <;> simp [exceptOk, hps]
  unfold getStructProperty tagsNumericOk
  cases hpo : tag.promptOptions with
  | none =>
    simp only []
    cases hm : applyMinTag fieldName tag.minTag (applyTailTags tag (basePropertyOf fieldName tag value ty)) with
    | error e =>
      have h1 := hmin (applyTailTags tag (basePropertyOf fieldName tag value ty))
      rw [hm] at h1
      simp only [exceptOk] at h1
      simp [exceptOk, hm, ← h1]
    | ok p1 =>
      have h1 := hmin (applyTailTags tag (basePropertyOf fieldName tag value ty))
      rw [hm] at h1
      simp only [exceptOk] at h1
      cases hx : applyMaxTag fieldName tag.maxTag p1 with
      | error e =>
        have h2 := hmax p1
        rw [hx] at h2
        simp only [exceptOk] at h2
        simp [exceptOk, hm, hx, ← h1, ← h2]
      | ok p2 =>
        have h2 := hmax p1
        rw [hx] at h2
        simp only [exceptOk] at h2
        simp [exceptOk, hm, hx, ← h1, ← h2]
  | some sopts =>
    simp only []
    cases happ : applyPromptOptions (basePropertyOf fieldName tag value ty) (sopts.splitOn ",") with
    | error e =>
      have h0 := applyPromptOptions_ok (sopts.splitOn ",") (basePropertyOf fieldName tag value ty)
      rw [happ] at h0
      simp only [exceptOk] at h0
      simp [exceptOk, happ, ← h0]
    | ok p0 =>
      have h0 := applyPromptOptions_ok (sopts.splitOn ",") (basePropertyOf fieldName tag value ty)
      rw [happ] at h0
      simp only [exceptOk] at h0
      cases hm : applyMinTag fieldName tag.minTag (applyTailTags tag p0) with
      | error e =>
        have h1 := hmin (applyTailTags tag p0)
        rw [hm] at h1
        simp only [exceptOk] at h1
        simp [exceptOk, happ, hm, ← h0, ← h1]
      | ok p1 =>
        have h1 := hmin (applyTailTags tag p0)
        rw [hm] at h1
        simp only [exceptOk] at h1
        cases hx : applyMaxTag fieldName tag.maxTag p1 with
        | error e =>
          have h2 := hmax p1
          rw [hx] at h2
          simp only [exceptOk] at h2
          simp [exceptOk, happ, hm, hx, ← h0, ← h1, ← h2]
        | ok p2 =>
          have h2 := hmax p1
          rw [hx] at h2
          simp only [exceptOk] at h2
          simp [exceptOk, happ, hm, hx, ← h0, ← h1, ← h2]

/-- C2: environment/default loading runs only while the field is still at
its zero value (Load is the identity on a non-zero scalar), and an
argument value found for the field during the FromArguments stage always
overwrites whatever the environment variable or declared default seeded:
after any Load outcome, for a scalar field of any type and any choice
table, a non-empty argument value whose conversion-and-parse succeeds is
stored with the args flag, replacing the seeded value; the stored value
is determined by the argument text alone, not by the seed. -/
theorem c2_args_override_seed :
    (∀ (opts : Options) (p : Property), valIsZero p.Value = false → propLoad opts p = .ok p) ∧
    (∀ (opts : Options) (argPre : String) (st : CaptureState) (p p1 : Property) (v : String)
        (args' : List String) (w : Val),
      propLoad opts p = .ok p1 →
      GetArg p1.Arg "" st.args argPre p1.IsBool = (v, args') →
      v ≠ "" →
      convParse p1.Ty p1.GetPromptChoices v = .ok w →
      fromArgsSimpleStep opts argPre st p1 =
        (.ok { p1 with Value := w, Flags := p1.Flags ||| flagArgs },
         { st with args := args' })) := by
  constructor
  · exact fun opts p h => propLoad_nonzero opts p h
  · intro opts argPre st p p1 v args' w hload hget hv hconv
    unfold fromArgsSimpleStep
    simp only [hget]
    rw [if_pos (by simp [hv])]
    rw [propSet_of_convParse p1 v flagArgs w hconv]

/-- C2 witness: the string field Name (env NAME, default "fallback") and
the int field Age (default 7) are seeded while zero, and the argument
values "Al" and "9" then overwrite the seeded values. -/
theorem c2_args_override_seed_witness :
    propLoad envOptions seededProp = .ok seededLoaded ∧
    fromArgsSimpleStep envOptions "--" ⟨["--name", "Al"], []⟩ seededLoaded =
      (.ok { seededLoaded with Value := .str "Al", Flags := seededLoaded.Flags ||| flagArgs },
       ⟨[], []⟩) ∧
    propLoad quietOptions ageDefProp = .ok ageDefLoaded ∧
    fromArgsSimpleStep quietOptions "--" ⟨["--age", "9"], []⟩ ageDefLoaded =
      (.ok { ageDefLoaded with Value := .int 9, Flags := ageDefLoaded.Flags ||| flagArgs },
       ⟨[], []⟩) :=
  ⟨rfl,
   c2_args_override_seed.2 envOptions "--" ⟨["--name", "Al"], []⟩ seededProp seededLoaded
     "Al" [] (.str "Al") rfl rfl (by decide) rfl,
   rfl,
   c2_args_override_seed.2 quietOptions "--" ⟨["--age", "9"], []⟩ ageDefProp ageDefLoaded
     "9" [] (.int 9) rfl rfl (by decide) rfl⟩

/-- A synthetic sub-property over empty arguments captures nothing: it
has no environment variables, no default, an empty arg key that no token
of an empty argument list matches, and prompting is unavailable. -/
theorem captureOne_sub_empty (fuel : Nat) (opts : Options) (pfx : String)
    (script : List String) (parent : Property) (t : GoType)
    (hsimple : typeIsSimple t = true) (hcp : opts.CanPrompt = false) :
    captureOne (fuel + 1) opts pfx ⟨[], script⟩ (subProperty parent (zeroOfType t) t) =
      (none, subProperty parent (zeroOfType t) t, ⟨[], script⟩) := by
  rw [captureOne_noprompt_eq fuel opts pfx ⟨[], script⟩ (subProperty parent (zeroOfType t) t) hcp]
  have hload : propLoad opts (subProperty parent (zeroOfType t) t) =
      .ok (subProperty parent (zeroOfType t) t) := by
    unfold propLoad propCanLoad loadText subProperty
    cases t <;> rfl
  have hsp : (subProperty parent (zeroOfType t) t).IsSimple = true := by
    unfold subProperty Property.IsSimple
    exact hsimple
  unfold propFromArgsStep
  simp only [hload]
  rw [if_neg (by unfold propCanFromArgs subProperty Property.IsIgnored; simp; decide)]
  rw [if_pos hsp]
  unfold fromArgsSimpleStep
  have hget : GetArg (subProperty parent (zeroOfType t) t).Arg "" ([] : List String) pfx
      (subProperty parent (zeroOfType t) t).IsBool = ("", []) := rfl
  simp only [hget]
  rfl

/-- C6: a growable list (slice) field declared with min:"1" (the Nums
[]string record), captured with zero arguments and prompting disabled,
terminates after producing zero elements, commits nothing (the property
is returned unchanged), and returns no error - for every fuel, argument
prefix and pending prompt script. -/
theorem c6_slice_min_no_args_no_error (fuel : Nat) (argPre : String) (script : List String) :
    captureOne (fuel + 2) quietOptions argPre ⟨[], script⟩ numsMinProp =
      (none, numsMinProp, ⟨[], script⟩) :=
  rfl

/-- Reading a line that fold-matches the configured quit token returns
the Quit sentinel from the default PromptOnce closure. -/
theorem promptOnce_quit (opts : Options) (once : PromptOnceOpts) (st : CaptureState)
    (l : String) (rest : List String)
    (hm : once.Multi = false) (hs : once.MultiStop = "")
    (hscript : st.script = l :: rest)
    (hnl : ∀ c ∈ l.data, !((['\n'] : List Char).contains c))
    (hquit : equalFold l opts.QuitPrompt = true) (hq : opts.QuitPrompt ≠ "") :
    promptOnce opts once st = (l, { st with script := rest }, some .quit) := by
  unfold promptOnce promptRead
  rw [hm, hs, hscript]
  simp only [Bool.false_eq_true, if_false]
  rw [trimRightSet_id l (("" : String).data ++ ['\n']) hnl]
  have hqb : (opts.QuitPrompt != "") = true := by simp [hq]
  simp [hqb, hquit]

/-- A simple property whose prompt reads the quit token aborts with the
Quit sentinel, consuming exactly that line. -/
theorem propPromptStep_quit (opts : Options) (st : CaptureState) (q : Property)
    (l : String) (rest : List String)
    (hcp : opts.CanPrompt = true)
    (hsimple : q.IsSimple = true) (hhide : q.HidePrompt = false)
    (hempty : q.PromptEmpty = false) (hmulti : q.PromptMulti = false)
    (hscript : st.script = l :: rest)
    (hnl : ∀ c ∈ l.data, !((['\n'] : List Char).contains c))
    (hquit : equalFold l opts.QuitPrompt = true) (hq : opts.QuitPrompt ≠ "") :
    propPromptStep opts st q = (.error .quit, { st with script := rest }) := by
  unfold propPromptStep
  have hcanp : propCanPrompt q = true := by
    unfold propCanPrompt Property.IsIgnored
    rw [hhide]
    rfl
  rw [hcanp]
  simp only [Bool.not_true, Bool.false_eq_true, if_false, hcp, hsimple, if_true]
  unfold promptSimpleStep
  rw [hempty]
  simp only [Bool.false_and, Bool.false_eq_true, if_false]
  unfold Options.Prompt
  simp only [promptTryLoop]
  rw [promptOnce_quit opts _ st l rest (by simp [PromptOptions.toOnce, hmulti]) rfl
        hscript hnl hquit hq]

/-- C4: if the prompt input for a single-value (simple) property equals
the configured quit token (case-insensitively), the overall capture call
returns the Quit sentinel and the sibling properties declared after the
quitting property are not loaded, parsed, prompted, validated, or
otherwise modified - they are returned exactly as given. -/
theorem c4_quit_aborts_capture (fuel : Nat) (opts : Options) (st : CaptureState)
    (pre post : List Property) (q q1 q2 : Property) (pre1 : List Property)
    (st1 st2 : CaptureState) (l : String) (rest : List String)
    (hcp : opts.CanPrompt = true)
    (hpre : capturePropsWith (captureOne (fuel + 1) opts opts.ArgPre) st pre =
      (none, pre1, st1))
    (hload : propLoad opts q = .ok q1)
    (hargs : propFromArgsStep (captureOne fuel opts) opts opts.ArgPre st1 q1 =
      (none, q2, st2))
    (hsimple : q2.IsSimple = true) (hhide : q2.HidePrompt = false)
    (hempty : q2.PromptEmpty = false) (hmulti : q2.PromptMulti = false)
    (hscript : st2.script = l :: rest)
    (hnl : ∀ c ∈ l.data, !((['\n'] : List Char).contains c))
    (hquit : equalFold l opts.QuitPrompt = true) (hq : opts.QuitPrompt ≠ "") :
    Capture (fuel + 1) opts st (pre ++ q :: post) =
      (some .quit, pre1 ++ q2 :: post, { st2 with script := rest }) := by
  unfold Capture
  rw [capturePropsWith_append]
  rw [hpre]
  have hq2 : captureOne (fuel + 1) opts opts.ArgPre st1 q =
      (some .quit, q2, { st2 with script := rest }) := by
    unfold captureOne
    simp only [hload]
    simp only [hargs]
    rw [propPromptStep_quit opts st2 q2 l rest hcp hsimple hhide hempty hmulti hscript
          hnl hquit hq]
  show (match capturePropsWith (captureOne (fuel + 1) opts opts.ArgPre) st1 (q :: post) with
        | (e, ys', st'') => (e, pre1 ++ ys', st'')) =
    (some GoError.quit, pre1 ++ q2 :: post, { st2 with script := rest })
  unfold capturePropsWith
  rw [hq2]

/-- C4 witness: with the scripted answer "QuIt!" for the first property
of the record {A string; B string}, capture returns the Quit sentinel
and the second property is untouched. -/
theorem c4_quit_aborts_capture_witness :
    Capture 4 promptingOptions ⟨[], ["QuIt!"]⟩ [fieldA, fieldB] =
      (some .quit, [fieldA, fieldB], ⟨[], []⟩) :=
  c4_quit_aborts_capture 3 promptingOptions ⟨[], ["QuIt!"]⟩ [] [fieldB] fieldA fieldA
    fieldA [] ⟨[], ["QuIt!"]⟩ ⟨[], ["QuIt!"]⟩ "QuIt!" [] rfl rfl rfl rfl rfl rfl rfl
    rfl rfl (by decide) rfl (by decide)

/-- The zero value of every type is zero. -/
theorem valIsZero_zeroOfType (t : GoType) : valIsZero (zeroOfType t) = true := by
  cases t <;> rfl

/-- Closed evaluation of one capture cycle for a simple property with
prompting unavailable: Load (environment/default seeding while zero),
then the argument lookup, then - prompt and validate being inert - the
result. -/
theorem captureOne_scalar_eval (fuel : Nat) (opts : Options) (argPre : String)
    (args script : List String) (q : Property)
    (hs : q.IsSimple = true) (hcp : opts.CanPrompt = false) :
    captureOne (fuel + 1) opts argPre ⟨args, script⟩ q =
      (match propLoad opts q with
       | .error e => (some e, q, ⟨args, script⟩)
       | .ok qL =>
         if propCanFromArgs qL then
           (match GetArg qL.Arg "" args argPre qL.IsBool with
            | (v, args') =>
              if v != "" then
                match propSet qL v flagArgs with
                | .ok q' => (none, q', ⟨args', script⟩)
                | .error e => (some e, qL, ⟨args', script⟩)
              else (none, qL, ⟨args', script⟩))
         else (none, qL, ⟨args, script⟩)) := by
  rw [captureOne_noprompt_eq fuel opts argPre ⟨args, script⟩ q hcp]
  cases hload : propLoad opts q with
  | error e => rfl
  | ok qL =>
    have hsL : qL.IsSimple = true := by
      obtain ⟨hty, _, _, _, _, _⟩ := propLoad_preserves opts q qL hload
      unfold Property.IsSimple at *
      rw [hty]
      exact hs
    unfold propFromArgsStep
    dsimp only []
    by_cases hcfa : propCanFromArgs qL
    · rw [if_neg (by rw [hcfa]; simp), if_pos hsL, if_pos hcfa]
      unfold fromArgsSimpleStep
      rcases hget : GetArg qL.Arg "" args argPre qL.IsBool with ⟨v, args'⟩
      simp only [hget]
      by_cases hv : (v != "") = true
      · rw [if_pos hv, if_pos hv]
        cases hset : propSet qL v flagArgs <;> simp [hset]
      · rw [if_neg hv, if_neg hv]
    · rw [if_pos (by rw [Bool.eq_false_iff.mpr hcfa]; rfl), if_neg hcfa]

/-- A zero-valued simple property can load. -/
theorem propCanLoad_of (q : Property) (h1 : q.IsSimple = true)
    (h2 : valIsZero q.Value = true) : propCanLoad q = true := by
  unfold propCanLoad Property.IsIgnored Property.IsDefault
  rw [h2, h1]
  rfl

/-- Forward evaluation of a no-prompt scalar capture when the arguments
provide a parsable value. -/
theorem captureOne_scalar_args_run (fuel : Nat) (opts : Options) (argPre : String)
    (args script : List String) (q qL p' : Property) (v : String) (args' : List String)
    (hs : q.IsSimple = true) (hcp : opts.CanPrompt = false)
    (hload : propLoad opts q = .ok qL)
    (hcfa : propCanFromArgs qL = true)
    (hget : GetArg qL.Arg "" args argPre qL.IsBool = (v, args'))
    (hv : (v != "") = true)
    (hset : propSet qL v flagArgs = .ok p') :
    captureOne (fuel + 1) opts argPre ⟨args, script⟩ q = (none, p', ⟨args', script⟩) := by
  rw [captureOne_scalar_eval fuel opts argPre args script q hs hcp]
  simp only [hload, hget, hset]
  rw [if_pos hcfa, if_pos hv]

/-- Forward evaluation of a no-prompt scalar capture when the arguments
provide no value. -/
theorem captureOne_scalar_noargs_run (fuel : Nat) (opts : Options) (argPre : String)
    (args script : List String) (q qL : Property) (v : String) (args' : List String)
    (hs : q.IsSimple = true) (hcp : opts.CanPrompt = false)
    (hload : propLoad opts q = .ok qL)
    (hcfa : propCanFromArgs qL = true)
    (hget : GetArg qL.Arg "" args argPre qL.IsBool = (v, args'))
    (hv : ¬((v != "") = true)) :
    captureOne (fuel + 1) opts argPre ⟨args, script⟩ q = (none, qL, ⟨args', script⟩) := by
  rw [captureOne_scalar_eval fuel opts argPre args script q hs hcp]
  simp only [hload, hget]
  rw [if_pos hcfa, if_neg hv]

/-- Forward evaluation of a no-prompt scalar capture when the property
does not read the arguments. -/
theorem captureOne_scalar_noarg_run (fuel : Nat) (opts : Options) (argPre : String)
    (args script : List String) (q qL : Property)
    (hs : q.IsSimple = true) (hcp : opts.CanPrompt = false)
    (hload : propLoad opts q = .ok qL)
    (hcfa : ¬(propCanFromArgs qL = true)) :
    captureOne (fuel + 1) opts argPre ⟨args, script⟩ q = (none, qL, ⟨args, script⟩) := by
  rw [captureOne_scalar_eval fuel opts argPre args script q hs hcp]
  simp only [hload]
  rw [if_neg hcfa]

/-- Re-running one scalar capture cycle on its own output (same
arguments, script and environment, prompting disabled) succeeds, ends in
the same state, and reproduces the output value. -/
theorem captureOne_scalar_idem (fuel : Nat) (opts : Options) (argPre : String)
    (args script : List String) (p p1 : Property) (st1 : CaptureState)
    (hs : p.IsSimple = true) (hzero : p.Value = zeroOfType p.Ty)
    (hcp : opts.CanPrompt = false)
    (h1 : captureOne (fuel + 1) opts argPre ⟨args, script⟩ p = (none, p1, st1)) :
    ∃ p2, captureOne (fuel + 1) opts argPre ⟨args, script⟩ p1 = (none, p2, st1) ∧
      p2.Value = p1.Value := by
  have h1orig := h1
  rw [captureOne_scalar_eval fuel opts argPre args script p hs hcp] at h1
  have hzv : valIsZero p.Value = true := by rw [hzero]; exact valIsZero_zeroOfType p.Ty
  have hcl : propCanLoad p = true := propCanLoad_of p hs hzv
  rcases hlt : loadText opts p with ⟨text, flag⟩
  have hloadeq := propLoad_canload opts p hcl text flag hlt
  by_cases htext : (text != "") = true
  · -- the load seeds the value through Set
    rw [if_pos htext] at hloadeq
    cases hsetL : propSet p text flag with
    | error e =>
      rw [hsetL] at hloadeq
      simp only [hloadeq] at h1
      simp at h1
    | ok pL =>
      rw [hsetL] at hloadeq
      obtain ⟨wL, hconvL, hpLshape⟩ := propSet_ok_shape p text flag pL hsetL
      subst hpLshape
      set L1 : Property := { p with Value := wL, Flags := p.Flags ||| flag } with hL1
      simp only [hloadeq] at h1
      by_cases hcfa : propCanFromArgs L1 = true
      · rw [if_pos hcfa] at h1
        rcases hget : GetArg L1.Arg "" args argPre L1.IsBool with ⟨v, args'⟩
        simp only [hget] at h1
        by_cases hv : (v != "") = true
        · -- seeded, then overwritten from the arguments
          rw [if_pos hv] at h1
          cases hsetA : propSet L1 v flagArgs with
          | error e => simp only [hsetA] at h1; simp at h1
          | ok pA =>
            obtain ⟨wv, hconvV, hpAshape⟩ := propSet_ok_shape L1 v flagArgs pA hsetA
            subst hpAshape
            set L2 : Property := { L1 with Value := wv, Flags := L1.Flags ||| flagArgs } with hL2
            simp only [hsetA] at h1
            simp only [Prod.mk.injEq, true_and] at h1
            obtain ⟨hp1, hst1⟩ := h1
            subst hst1
            subst hp1
            by_cases hwz : valIsZero wv = true
            · have hcl2 : propCanLoad L2 = true := propCanLoad_of L2 hs hwz
              have hload2 := propLoad_canload opts L2 hcl2 text flag hlt
              rw [if_pos htext, propSet_of_convParse L2 text flag wL hconvL] at hload2
              exact ⟨_, captureOne_scalar_args_run fuel opts argPre args script L2 _ _ v args'
                hs hcp hload2 hcfa hget hv (propSet_of_convParse _ v flagArgs wv hconvV), rfl⟩
            · have hload2 : propLoad opts L2 = .ok L2 :=
                propLoad_nonzero opts L2 (Bool.eq_false_iff.mpr hwz)
              exact ⟨_, captureOne_scalar_args_run fuel opts argPre args script L2 L2 _ v args'
                hs hcp hload2 hcfa hget hv (propSet_of_convParse _ v flagArgs wv hconvV), rfl⟩
        · -- seeded, the arguments yield nothing
          rw [if_neg hv] at h1
          simp only [Prod.mk.injEq, true_and] at h1
          obtain ⟨hp1, hst1⟩ := h1
          subst hst1
          subst hp1
          by_cases hwz : valIsZero wL = true
          · have hcl2 : propCanLoad L1 = true := propCanLoad_of L1 hs hwz
            have hload2 := propLoad_canload opts L1 hcl2 text flag hlt
            rw [if_pos htext, propSet_of_convParse L1 text flag wL hconvL] at hload2
            exact ⟨_, captureOne_scalar_noargs_run fuel opts argPre args script L1 _ v args'
              hs hcp hload2 hcfa hget hv, rfl⟩
          · have hload2 : propLoad opts L1 = .ok L1 :=
              propLoad_nonzero opts L1 (Bool.eq_false_iff.mpr hwz)
            exact ⟨_, captureOne_scalar_noargs_run fuel opts argPre args script L1 L1 v args'
              hs hcp hload2 hcfa hget hv, rfl⟩
      · -- seeded, the arguments are not consulted
        rw [if_neg hcfa] at h1
        simp only [Prod.mk.injEq, true_and] at h1
        obtain ⟨hp1, hst1⟩ := h1
        subst hst1
        subst hp1
        by_cases hwz : valIsZero wL = true
        · have hcl2 : propCanLoad L1 = true := propCanLoad_of L1 hs hwz
          have hload2 := propLoad_canload opts L1 hcl2 text flag hlt
          rw [if_pos htext, propSet_of_convParse L1 text flag wL hconvL] at hload2
          exact ⟨_, captureOne_scalar_noarg_run fuel opts argPre args script L1 _
            hs hcp hload2 hcfa, rfl⟩
        · have hload2 : propLoad opts L1 = .ok L1 :=
            propLoad_nonzero opts L1 (Bool.eq_false_iff.mpr hwz)
          exact ⟨_, captureOne_scalar_noarg_run fuel opts argPre args script L1 L1
            hs hcp hload2 hcfa, rfl⟩
  · -- nothing to load: the property passes through the load unchanged
    rw [if_neg htext] at hloadeq
    simp only [hloadeq] at h1
    by_cases hcfa : propCanFromArgs p = true
    · rw [if_pos hcfa] at h1
      rcases hget : GetArg p.Arg "" args argPre p.IsBool with ⟨v, args'⟩
      simp only [hget] at h1
      by_cases hv : (v != "") = true
      · -- set from the arguments only
        rw [if_pos hv] at h1
        cases hsetA : propSet p v flagArgs with
        | error e => simp only [hsetA] at h1; simp at h1
        | ok pA =>
          obtain ⟨wv, hconvV, hpAshape⟩ := propSet_ok_shape p v flagArgs pA hsetA
          subst hpAshape
          set M : Property := { p with Value := wv, Flags := p.Flags ||| flagArgs } with hM
          simp only [hsetA] at h1
          simp only [Prod.mk.injEq, true_and] at h1
          obtain ⟨hp1, hst1⟩ := h1
          subst hst1
          subst hp1
          by_cases hwz : valIsZero wv = true
          · have hcl2 : propCanLoad M = true := propCanLoad_of M hs hwz
            have hload2 := propLoad_canload opts M hcl2 text flag hlt
            rw [if_neg htext] at hload2
            exact ⟨_, captureOne_scalar_args_run fuel opts argPre args script M M _ v args'
              hs hcp hload2 hcfa hget hv (propSet_of_convParse _ v flagArgs wv hconvV), rfl⟩
          · have hload2 : propLoad opts M = .ok M :=
              propLoad_nonzero opts M (Bool.eq_false_iff.mpr hwz)
            exact ⟨_, captureOne_scalar_args_run fuel opts argPre args script M M _ v args'
              hs hcp hload2 hcfa hget hv (propSet_of_convParse _ v flagArgs wv hconvV), rfl⟩
      · -- nothing found anywhere: the property is unchanged
        rw [if_neg hv] at h1
        simp only [Prod.mk.injEq, true_and] at h1
        obtain ⟨hp1, hst1⟩ := h1
        subst hst1
        subst hp1
        exact ⟨p, h1orig, rfl⟩
    · -- the arguments are not consulted and there is no seed
      rw [if_neg hcfa] at h1
      simp only [Prod.mk.injEq, true_and] at h1
      obtain ⟨hp1, hst1⟩ := h1
      subst hst1
      subst hp1
      exact ⟨p, h1orig, rfl⟩

/-- C3 (amended): with prompting disabled, capturing a record of
zero-valued scalar properties is idempotent: if a capture from a given
argument/script state succeeds, re-running the capture from the same
initial state against the already-populated properties succeeds, ends in
the same final state, and leaves every field value unchanged. -/
theorem c3_scalar_capture_idempotent (fuel : Nat) (opts : Options)
    (props props1 props2 : List Property) (st0 st1 st2 : CaptureState)
    (hall : ∀ q ∈ props, q.IsSimple = true ∧ q.Value = zeroOfType q.Ty)
    (hcp : opts.CanPrompt = false)
    (h1 : Capture (fuel + 1) opts st0 props = (none, props1, st1))
    (h2 : Capture (fuel + 1) opts st0 props1 = (none, props2, st2)) :
    props2.map Property.Value = props1.map Property.Value ∧ st2 = st1 := by
  unfold Capture at h1 h2
  induction props generalizing props1 props2 st0 st1 st2 with
  | nil =>
    simp only [capturePropsWith] at h1
    simp only [Prod.mk.injEq, true_and] at h1
    obtain ⟨hp1, hst1⟩ := h1
    subst hp1
    subst hst1
    simp only [capturePropsWith] at h2
    simp only [Prod.mk.injEq, true_and] at h2
    obtain ⟨hp2, hst2⟩ := h2
    subst hp2
    subst hst2
    exact ⟨rfl, rfl⟩
  | cons q rest ih =>
    obtain ⟨a0, s0⟩ := st0
    simp only [capturePropsWith] at h1
    rcases hq1 : captureOne (fuel + 1) opts opts.ArgPre ⟨a0, s0⟩ q with ⟨e0, q1, st'⟩
    cases e0 with
    | some e => simp only [hq1] at h1; simp at h1
    | none =>
      simp only [hq1] at h1
      rcases hrest1 : capturePropsWith (captureOne (fuel + 1) opts opts.ArgPre) st' rest
        with ⟨e1, rest1, st1'⟩
      simp only [hrest1] at h1
      simp only [Prod.mk.injEq] at h1
      obtain ⟨he1, hp1, hst1⟩ := h1
      subst he1
      subst hp1
      subst hst1
      obtain ⟨hqS, hqZ⟩ := hall q (by simp)
      obtain ⟨q2, hq2, hq2v⟩ :=
        captureOne_scalar_idem fuel opts opts.ArgPre a0 s0 q q1 st' hqS hqZ hcp hq1
      simp only [capturePropsWith] at h2
      simp only [hq2] at h2
      rcases hrest2 : capturePropsWith (captureOne (fuel + 1) opts opts.ArgPre) st' rest1
        with ⟨e2, rest2, st2'⟩
      simp only [hrest2] at h2
      simp only [Prod.mk.injEq] at h2
      obtain ⟨he2, hp2, hst2⟩ := h2
      subst he2
      subst hp2
      subst hst2
      have hallrest : ∀ q' ∈ rest, q'.IsSimple = true ∧ q'.Value = zeroOfType q'.Ty :=
        fun q' hm => hall q' (List.mem_cons_of_mem _ hm)
      obtain ⟨hmap, hst⟩ := ih rest1 rest2 st' st1' st2' hallrest hrest1 hrest2
      constructor
      · simp only [List.map_cons]
        rw [hq2v, hmap]
      · exact hst

/-- Witness for c3_scalar_capture_idempotent: a Name/Age record captured
twice from the arguments ["--name", "Al", "--age", "9"]. -/
theorem c3_scalar_capture_idempotent_witness :
    Capture 3 quietOptions ⟨["--name", "Al", "--age", "9"], []⟩ [nameProp0, ageProp0] =
      (none, [nameAl, ageNine], CaptureState.mk [] []) ∧
    Capture 3 quietOptions ⟨["--name", "Al", "--age", "9"], []⟩ [nameAl, ageNine] =
      (none, [nameAl, ageNine], CaptureState.mk [] []) ∧
    ([nameAl, ageNine].map Property.Value = [nameAl, ageNine].map Property.Value ∧
      CaptureState.mk [] [] = CaptureState.mk [] []) :=
  ⟨rfl, rfl,
   c3_scalar_capture_idempotent 2 quietOptions [nameProp0, ageProp0] [nameAl, ageNine]
     [nameAl, ageNine] ⟨["--name", "Al", "--age", "9"], []⟩ (CaptureState.mk [] [])
     (CaptureState.mk [] [])
     (by
       intro q hq
       rcases List.mem_cons.mp hq with h | hq2
       · subst h; exact ⟨rfl, rfl⟩
       · rcases List.mem_cons.mp hq2 with h | h
         · subst h; exact ⟨rfl, rfl⟩
         · cases h)
     rfl rfl rfl⟩

end Cmdgo
